import Mathlib

/-!
Shallow embedding of the wireguard_manage server (Python) in Lean 4.

Conventions of the embedding:
* SQLite rows become Lean structures; a table is a `List` of rows in insertion
  order; `INTEGER PRIMARY KEY AUTOINCREMENT` is modelled by a `next…Id` counter
  carried in the state, starting at 1.
* Timestamps: the code stores local-time strings "YYYY-MM-DD HH:MM:SS" and
  re-parses them with `datetime.strptime`.  Strings written by the engine
  itself always parse back, so engine-written stamps are modelled by their
  parsed views: `unix : Int` (seconds, used for differences such as
  `datetime.now() - start_time`) and a date string `ymd` (used where SQL
  applies `DATE(...)` or the code formats "%Y-%m-%d").  A tick's wall clock is
  a `Clock` bundling both views of the same instant.
* User-supplied date strings (`expiry_date`) are kept as raw strings and
  parsed with `strptime19`, a model of
  `datetime.strptime(s, "%Y-%m-%d %H:%M:%S")` (including calendar
  validation; like Python, the numeric fields may be 1 or 2 digits).
* Python `a or b` on an optional integer (`final_rx or row'value'`) is
  `pyOr`: `None` and `0` are both falsy.  On an optional string
  (`nickname or default`) it is `pyOrStr`: `None` and `""` are falsy.
* The in-memory dict `user_sessions` is an association list with unique keys
  (a dict cannot hold a key twice); `d[k] = v` on a present key is a map at
  that key, installation of an absent key appends, and `del d[k]` removes the
  entry with that key.
* The WireGuard adapter stubs `add_wg_peer` / `remove_wg_peer` only log and
  return `True`; the embedding records each call in a ghost `wgLog` so that
  "the adapter was (not) called" is expressible.
* `sqlite3` is opened without `PRAGMA foreign_keys`, so `ON DELETE CASCADE`
  never fires; deleting a user row leaves its event/traffic rows in place.
-/

/-- A parsed "YYYY-MM-DD HH:MM:SS" local timestamp (`datetime.datetime`).
Python compares such values lexicographically by field. -/
structure PyDateTime where
  year : Nat
  month : Nat
  day : Nat
  hour : Nat
  minute : Nat
  second : Nat
deriving DecidableEq, Repr

/-- Lexicographic strict order on datetimes, as Python compares them. -/
def PyDateTime.toList (a : PyDateTime) : List Nat :=
  [a.year, a.month, a.day, a.hour, a.minute, a.second]

def PyDateTime.ltb (a b : PyDateTime) : Bool :=
  decide (a.toList < b.toList)

/-- Gregorian leap-year rule used by `datetime` for day-of-month validation. -/
def isLeapYear (y : Nat) : Bool :=
  (y % 4 == 0 && y % 100 != 0) || (y % 400 == 0)

/-- Days in a month, as `datetime` validates the day field. -/
def daysInMonth (y m : Nat) : Nat :=
  if m == 2 then (if isLeapYear y then 29 else 28)
  else if m == 4 || m == 6 || m == 9 || m == 11 then 30
  else 31

/-- `str.split(sep)` for a one-character separator, on the character list of
the string (structural, so that proofs can evaluate it). -/
def splitOnChar (sep : Char) : List Char → List (List Char)
  | [] => [[]]
  | c :: cs =>
    let r := splitOnChar sep cs
    if c == sep then [] :: r
    else
      match r with
      | [] => [[c]]
      | h :: t => (c :: h) :: t

/-- A run of 1 to `maxLen` ASCII digits, as the `strptime` field regexes
accept, read as a number. -/
def digitsToNat? (maxLen : Nat) (cs : List Char) : Option Nat :=
  if cs.length == 0 || cs.length > maxLen || !(cs.all Char.isDigit) then none
  else some (cs.foldl (fun a c => a * 10 + (c.toNat - 48)) 0)

/-- `int(s)` on the strings the IP allocator meets: an optional minus sign
followed by at least one digit (anything else raises ValueError). -/
def pyInt? (cs : List Char) : Option Int :=
  match cs with
  | '-' :: rest =>
    match digitsToNat? rest.length rest with
    | some n => some (-(n : Int))
    | none => none
  | _ =>
    match digitsToNat? cs.length cs with
    | some n => some (n : Int)
    | none => none

/-- The character class of Python's regex `\s`, which whitespace in a
strptime format compiles to: ASCII whitespace plus the Unicode whitespace
code points. -/
def isPyWhitespace (c : Char) : Bool :=
  c == ' ' || c == '\t' || c == '\n' || c == '\r' || c == '\x0b' || c == '\x0c' ||
    c == '\x1c' || c == '\x1d' || c == '\x1e' || c == '\x1f' || c == '\x85' ||
    c == '\xa0' || c.val == 0x1680 || (0x2000 ≤ c.val && c.val ≤ 0x200a) ||
    c.val == 0x2028 || c.val == 0x2029 || c.val == 0x202f || c.val == 0x205f ||
    c.val == 0x3000

/-- Model of `datetime.strptime(s, "%Y-%m-%d %H:%M:%S")`: the year is exactly
4 digits, the other fields 1-2 digits, and the resulting calendar date must be
valid (month 1-12, day within the month, hour below 24, minute/second below
60), else `ValueError` (here `none`).  The space in the format compiles to
the regex `\s+`, so the date and time parts are separated by one or more
whitespace characters; neither part may itself contain whitespace, and the
match must consume the whole string ("unconverted data remains"). -/
def strptime19 (s : String) : Option PyDateTime :=
  let cs := s.toList
  let ds := cs.takeWhile (fun c => !(isPyWhitespace c))
  let rest := cs.drop ds.length
  let ws := rest.takeWhile isPyWhitespace
  let ts := rest.drop ws.length
  if ws.length == 0 || ts.any isPyWhitespace then none
  else
    match splitOnChar '-' ds, splitOnChar ':' ts with
    | [ys, ms, dds], [hs, mis, ss] =>
      match digitsToNat? 4 ys, digitsToNat? 2 ms, digitsToNat? 2 dds,
            digitsToNat? 2 hs, digitsToNat? 2 mis, digitsToNat? 2 ss with
      | some y, some mo, some d, some h, some mi, some sec =>
        if ys.length == 4 && 1 ≤ y && 1 ≤ mo && mo ≤ 12 && 1 ≤ d &&
            d ≤ daysInMonth y mo && h ≤ 23 && mi ≤ 59 && sec ≤ 59 then
          some ⟨y, mo, d, h, mi, sec⟩
        else none
      | _, _, _, _, _, _ => none
    | _, _ => none

/-- One tick's wall clock: `unix` is the instant in seconds (`time.time()`,
and the parse of the "YYYY-MM-DD HH:MM:SS" string the same instant is stored
as), `wall` is `datetime.now()` for expiry comparisons, `today` is
`strftime("%Y-%m-%d")`. -/
structure Clock where
  unix : Int
  wall : PyDateTime
  today : String
deriving DecidableEq, Repr

/-- Python `a or b` for an optional integer: `None` and `0` are falsy. -/
def pyOr (a : Option Int) (b : Int) : Int :=
  match a with
  | none => b
  | some x => if x == 0 then b else x

/-- Python `a or b` for an optional string: `None` and `""` are falsy. -/
def pyOrStr (a : Option String) (b : String) : String :=
  match a with
  | none => b
  | some x => if x == "" then b else x

/-- Standard base64 alphabet membership (`+`, `/`, letters, digits). -/
def isB64Char (c : Char) : Bool :=
  c.isAlpha || c.isDigit || c == '+' || c == '/'

/-- Model of `base64.b64decode(s)` succeeding.  Without `validate=True`,
`binascii.a2b_base64` ignores characters outside the alphabet, stops at the
first `=` padding, and fails only when the number of alphabet characters
consumed is congruent to 1 mod 4. -/
def b64decodeOk (s : String) : Bool :=
  let k := ((s.toList.takeWhile (fun c => c != '=')).filter isB64Char).length
  k % 4 != 1

/-- helpers.validate_pubkey: 44 characters and `b64decode(pubkey + '==')`
succeeds. -/
def validate_pubkey (pubkey : String) : Bool :=
  if pubkey == "" || pubkey.length != 44 then false
  else b64decodeOk (pubkey ++ "==")

/-- Character class `[a-zA-Z0-9._%+-]` of the local part of helpers'
email regex. -/
def isLocalChar (c : Char) : Bool :=
  c.isAlpha || c.isDigit || c == '.' || c == '_' || c == '%' || c == '+' || c == '-'

/-- Character class `[a-zA-Z0-9.-]` of the domain part. -/
def isDomainChar (c : Char) : Bool :=
  c.isAlpha || c.isDigit || c == '.' || c == '-'

/-- helpers.validate_email: empty/absent is accepted (optional field);
otherwise the string must match `^[a-zA-Z0-9._%+-]+@[a-zA-Z0-9.-]+\.[a-zA-Z]{2,}$`.
Because the final group excludes dots and is anchored at the end, the dot
before it is necessarily the last dot of the domain. -/
def validate_email (email : String) : Bool :=
  if email == "" then true
  else
    match splitOnChar '@' email.toList with
    | [lcs, dcs] =>
      let tld := (dcs.reverse.takeWhile (fun c => c != '.')).reverse
      let stem := dcs.take (dcs.length - tld.length - 1)
      lcs.length > 0 && lcs.all isLocalChar &&
        dcs.contains '.' &&
        stem.length > 0 && stem.all isDomainChar &&
        tld.length ≥ 2 && tld.all Char.isAlpha
    | _ => false

/-- constants.MAX_HANDSHAKE_AGE (seconds). -/
def MAX_HANDSHAKE_AGE : Int := 180

/-- session_handler.is_peer_online: a `handshake` of 0 is always offline,
otherwise the handshake age at `current_time` must not exceed the maximum
(`MAX_HANDSHAKE_AGE` when the caller passes `None`). -/
def is_peer_online (current_time handshake : Int) (max_handshake_age : Option Int) : Bool :=
  let maxAge := max_handshake_age.getD MAX_HANDSHAKE_AGE
  if handshake == 0 then false
  else decide (current_time - handshake ≤ maxAge)

/-- A row of the `users` table (schema in db/database.py).  `login_ip` is
never written by the code and is omitted.  Timestamp columns hold the parsed
`unix` view of the stored string. -/
structure UserRow where
  id : Nat
  peer_pubkey : String
  client_ip : Option String
  nickname : Option String
  mail : Option String
  phone : Option String
  bandwidth_limit : Int
  data_limit : Int
  expiry_date : Option String
  status : Nat
  enabled : Nat
  total_rx : Int
  total_tx : Int
  last_login : Option Int
  note : Option String
  wg_config : Option String
  created_at : Int
  updated_at : Int
deriving DecidableEq, Repr

/-- A row of the `events` table.  `start_time` is the parsed seconds of the
stored "YYYY-MM-DD HH:MM:SS" string and `start_date` its date part (the code
applies `DATE(start_time)` in SQL); engine-written stamps always re-parse. -/
structure EventRow where
  id : Nat
  user_id : Nat
  start_time : Int
  start_date : String
  end_time : Option Int
  last_update : Int
  session_rx : Int
  session_tx : Int
  login_ip : Option String
  endpoint_info : Option String
  status : String
  duration_seconds : Int
deriving DecidableEq, Repr

/-- A row of the `traffic_stats` table (unique on user_id, date). -/
structure TrafficRow where
  user_id : Nat
  date : String
  daily_rx : Int
  daily_tx : Int
  session_count : Int
  created_at : Int
  updated_at : Int
deriving DecidableEq, Repr

/-- A row of the `system_stats` table (unique on date).  `SUM(...)` over zero
rows is SQL NULL, hence the `Option Int` columns. -/
structure SysRow where
  date : String
  total_users : Nat
  active_users : Option Int
  total_rx : Option Int
  total_tx : Option Int
  peak_concurrent : Int
  avg_session_duration : Int
  created_at : Int
  updated_at : Int
deriving DecidableEq, Repr

/-- A value of the in-memory `user_sessions` dict (constants.py). -/
structure SessionEntry where
  event_id : Nat
  start_rx : Int
  start_tx : Int
  last_handshake : Int
  user_id : Nat
  nickname : String
deriving DecidableEq, Repr

/-- One peer of an adapter snapshot (wg_commands.get_wg_peers value). -/
structure PeerInfo where
  rx : Int
  tx : Int
  handshake : Int
  endpoint : Option String
deriving DecidableEq, Repr

/-- A recorded call to the WireGuard adapter (ghost state; the stubs in
wg_commands.py only log and return True). -/
inductive WgCall where
  | add (pubkey client_ip : String)
  | remove (pubkey : String)
deriving DecidableEq, Repr

/-- The whole mutable state of the server process: the four tables, the
live-session dict and the AUTOINCREMENT counters, plus the ghost adapter
log. -/
structure ServerState where
  users : List UserRow
  events : List EventRow
  traffic : List TrafficRow
  system_stats : List SysRow
  sessions : List (String × SessionEntry)
  nextUserId : Nat
  nextEventId : Nat
  wgLog : List WgCall
deriving DecidableEq, Repr

/-- The empty store the run starts from (fresh database, empty dict). -/
def initState : ServerState :=
  ⟨[], [], [], [], [], 1, 1, []⟩

/-- Python exceptions distinguished by the API handlers' except clauses. -/
inductive PyErr where
  | valueError (msg : String)
  | runtimeError (msg : String)
  | indexError (msg : String)
deriving DecidableEq, Repr

/-- SELECT ... FROM users WHERE id = ? (unique id). -/
def findUser? (s : ServerState) (uid : Nat) : Option UserRow :=
  s.users.find? (fun u => u.id == uid)

/-- SELECT ... FROM users WHERE peer_pubkey = ? (unique column). -/
def findUserByPk? (s : ServerState) (pk : String) : Option UserRow :=
  s.users.find? (fun u => u.peer_pubkey == pk)

/-- SELECT ... FROM events WHERE id = ? (unique id). -/
def findEvent? (s : ServerState) (eid : Nat) : Option EventRow :=
  s.events.find? (fun e => e.id == eid)

/-- Lookup in the `user_sessions` dict. -/
def lookupSession (s : ServerState) (pk : String) : Option (String × SessionEntry) :=
  s.sessions.find? (fun q => q.1 == pk)

/-- database.update_user_status / user_manager.update_user_status:
UPDATE users SET status = ?, updated_at = ? WHERE id = ?. -/
def update_user_status (uid : Nat) (status : Nat) (clk : Clock) (s : ServerState) : ServerState :=
  { s with users := s.users.map (fun u =>
      if u.id == uid then { u with status := status, updated_at := clk.unix } else u) }

/-- stats_manager.update_user_traffic_stats: adds the closed session's bytes
to the user's lifetime totals and stamps last_login. -/
def update_user_traffic_stats (uid : Nat) (session_rx session_tx : Int) (clk : Clock)
    (s : ServerState) : ServerState :=
  { s with users := s.users.map (fun u =>
      if u.id == uid then
        { u with total_rx := u.total_rx + session_rx,
                 total_tx := u.total_tx + session_tx,
                 last_login := some clk.unix,
                 updated_at := clk.unix }
      else u) }

/-- stats_manager.update_daily_traffic_stats: INSERT OR REPLACE upsert of the
(user_id, today) row, accumulating rx/tx/session_count by addition and
keeping any prior created_at.  REPLACE deletes the conflicting row and
inserts the new one. -/
def update_daily_traffic_stats (uid : Nat) (rx tx : Int) (session_count : Int) (clk : Clock)
    (s : ServerState) : ServerState :=
  let old := s.traffic.find? (fun t => t.user_id == uid && t.date == clk.today)
  let newRow : TrafficRow :=
    { user_id := uid
      date := clk.today
      daily_rx := (match old with | some o => o.daily_rx | none => 0) + rx
      daily_tx := (match old with | some o => o.daily_tx | none => 0) + tx
      session_count := (match old with | some o => o.session_count | none => 0) + session_count
      created_at := (match old with | some o => o.created_at | none => clk.unix)
      updated_at := clk.unix }
  { s with traffic :=
      (s.traffic.filter (fun t => !(t.user_id == uid && t.date == clk.today))) ++ [newRow] }

/-- SQL SUM over a column: NULL on an empty row set. -/
def sqlSum (l : List Int) : Option Int :=
  match l with
  | [] => none
  | _ => some (l.foldl (fun a b => a + b) 0)

/-- stats_manager.update_system_stats: today's system roll-up.  Counts and
sums are over enabled users; the average session duration is over today's
events with positive duration (SQL AVG truncated to int, 0 when NULL);
peak_concurrent takes the max of today's previous value and the live-map
size; created_at of a prior row for today is preserved. -/
def update_system_stats (clk : Clock) (s : ServerState) : ServerState :=
  let enabledUsers := s.users.filter (fun u => u.enabled == 1)
  let totalUsers := enabledUsers.length
  let activeUsers := sqlSum (enabledUsers.map (fun u => if u.status == 1 then 1 else 0))
  let totalRx := sqlSum (enabledUsers.map (fun u => u.total_rx))
  let totalTx := sqlSum (enabledUsers.map (fun u => u.total_tx))
  let todays := s.events.filter (fun e => e.start_date == clk.today && e.duration_seconds > 0)
  let avgDuration : Int :=
    match sqlSum (todays.map (fun e => e.duration_seconds)) with
    | none => 0
    | some total => total / (todays.length : Int)
  let currentOnline : Int := (s.sessions.length : Int)
  let old := s.system_stats.find? (fun r => r.date == clk.today)
  let newRow : SysRow :=
    { date := clk.today
      total_users := totalUsers
      active_users := activeUsers
      total_rx := totalRx
      total_tx := totalTx
      peak_concurrent := max (match old with | some o => o.peak_concurrent | none => 0) currentOnline
      avg_session_duration := avgDuration
      created_at := (match old with | some o => o.created_at | none => clk.unix)
      updated_at := clk.unix }
  { s with system_stats :=
      (s.system_stats.filter (fun r => !(r.date == clk.today))) ++ [newRow] }

/-- wg_commands.add_wg_peer: the stub logs and returns True; the ghost log
records the call. -/
def add_wg_peer (pubkey client_ip : String) (s : ServerState) : ServerState × Bool :=
  ({ s with wgLog := s.wgLog ++ [WgCall.add pubkey client_ip] }, true)

/-- wg_commands.remove_wg_peer: the stub logs and returns True. -/
def remove_wg_peer (pubkey : String) (s : ServerState) : ServerState × Bool :=
  ({ s with wgLog := s.wgLog ++ [WgCall.remove pubkey] }, true)

/-- wg_commands.generate_wg_config (template text; the exact contents are
irrelevant to every claim). -/
def generate_wg_config (server_public_key : Option String) (client_public_key client_ip : String) :
    String :=
  "[Interface] Address = " ++ client_ip ++ "/32 [Peer] PublicKey = " ++
    (pyOrStr server_public_key "SERVER_PUBLIC_KEY") ++ " # " ++ client_public_key

/-- CPython string comparison: lexicographic by code point on the character
sequences (structural, so that proofs can evaluate it). -/
def charListLt : List Char → List Char → Bool
  | _, [] => false
  | [], _ :: _ => true
  | a :: as, b :: bs => if a < b then true else if b < a then false else charListLt as bs

/-- Python `a <= b` on strings: equality or strict lexicographic order. -/
def pyStrLe (a b : String) : Bool := a == b || charListLt a.data b.data

/-- Insertion of one string into a `pyStrLe`-sorted list. -/
def pyInsort (x : String) : List String → List String
  | [] => [x]
  | y :: ys => if pyStrLe x y then x :: y :: ys else y :: pyInsort x ys

/-- Python `list.sort()` on strings.  Sorting by a linear order has a unique
result, so insertion sort agrees with CPython's mergesort. -/
def pySort : List String → List String
  | [] => []
  | x :: xs => pyInsort x (pySort xs)

/-- wg_commands.get_next_available_ip, as a pure function of the assigned
`client_ip` column values (SELECT client_ip FROM users WHERE client_ip IS NOT
NULL, in table order).  The code sorts the strings with `list.sort()` —
plain lexicographic string order — takes the last, parses only its last
octet with `int(...)` and increments it, failing above 254.  `list.sort()`
is modelled by `insertionSort (· ≤ ·)`: sorting by a linear order has a
unique result, so any stable sort agrees. -/
def get_next_available_ip (ips : List String) : Except PyErr String :=
  match ips with
  | [] => Except.ok "10.0.0.2"
  | _ =>
    let sorted := pySort ips
    let last_ip := sorted.getLastD ""
    let parts := splitOnChar '.' last_ip.toList
    match parts.get? 3 with
    | none => Except.error (PyErr.indexError "list index out of range")
    | some octetStr =>
      match pyInt? octetStr with
      | none =>
        Except.error (PyErr.valueError ("invalid literal for int: " ++ String.mk octetStr))
      | some last_octet =>
        let next_octet := last_octet + 1
        if next_octet > 254 then Except.error (PyErr.valueError "No available IP addresses")
        else
          Except.ok (String.mk (parts.getD 0 []) ++ "." ++ String.mk (parts.getD 1 []) ++
            "." ++ String.mk (parts.getD 2 []) ++ "." ++ toString next_octet)

/-- user_manager.get_or_create_user: validate the pubkey; on an existing
user, run the expiry check (a set expiry_date that parses and lies strictly
before `datetime.now()` persists enabled = 0 and reports the user disabled;
a parse failure is swallowed by "except ValueError: pass"); otherwise insert
a bare user row.  Returns (user_id, nickname, enabled). -/
def get_or_create_user (clk : Clock) (pk : String) (s : ServerState) :
    Except PyErr (ServerState × Nat × String × Nat) :=
  if !(validate_pubkey pk) then Except.error (PyErr.valueError "Invalid public key format")
  else
    match findUserByPk? s pk with
    | some u =>
      let nick := pyOrStr u.nickname ("User_" ++ toString u.id)
      match u.expiry_date with
      | some ed =>
        match strptime19 ed with
        | some expiry =>
          if PyDateTime.ltb expiry clk.wall then
            Except.ok
              ({ s with users := s.users.map (fun v =>
                  if v.id == u.id then { v with enabled := 0, updated_at := clk.unix } else v) },
               u.id, nick, 0)
          else Except.ok (s, u.id, nick, u.enabled)
        | none => Except.ok (s, u.id, nick, u.enabled)
      | none => Except.ok (s, u.id, nick, u.enabled)
    | none =>
      let uid := s.nextUserId
      let row : UserRow :=
        { id := uid, peer_pubkey := pk, client_ip := none, nickname := none, mail := none,
          phone := none, bandwidth_limit := 0, data_limit := 0, expiry_date := none,
          status := 0, enabled := 1, total_rx := 0, total_tx := 0, last_login := none,
          note := none, wg_config := none, created_at := clk.unix, updated_at := clk.unix }
      Except.ok ({ s with users := s.users ++ [row], nextUserId := uid + 1 },
        uid, "User_" ++ toString uid, 1)

/-- session_handler.create_new_session: INSERT a fresh ONLINE event row with
start_time = last_update = now, zero session counters, NULL login_ip; returns
the new row id. -/
def create_new_session (uid : Nat) (login_ip endpoint_info : Option String) (clk : Clock)
    (s : ServerState) : ServerState × Nat :=
  let eid := s.nextEventId
  let row : EventRow :=
    { id := eid, user_id := uid, start_time := clk.unix, start_date := clk.today,
      end_time := none, last_update := clk.unix, session_rx := 0, session_tx := 0,
      login_ip := login_ip, endpoint_info := endpoint_info, status := "ONLINE",
      duration_seconds := 0 }
  ({ s with events := s.events ++ [row], nextEventId := eid + 1 }, eid)

/-- session_handler.update_session_traffic: UPDATE the event row's
last_update and session counters. -/
def update_session_traffic (eid : Nat) (session_rx session_tx : Int) (clk : Clock)
    (s : ServerState) : ServerState :=
  { s with events := s.events.map (fun e =>
      if e.id == eid then
        { e with last_update := clk.unix, session_rx := session_rx, session_tx := session_tx }
      else e) }

/-- The closed version of an event row written by close_session.  The
duration is `int((datetime.now() - start_time).total_seconds())` — exact on
whole seconds and NOT clamped, so it is negative whenever start_time lies
after the close instant. -/
def closeRow (clk : Clock) (rx tx : Int) (e : EventRow) : EventRow :=
  { e with end_time := some clk.unix, session_rx := rx, session_tx := tx,
           status := "OFFLINE", duration_seconds := clk.unix - e.start_time }

/-- session_handler.close_session: read the event row (no-op when the id is
unknown), fall back from falsy final counters to the stored session counters
(Python `final_rx or stored`), add them to the user's lifetime totals and
today's traffic row, then close the event row.  The "except" fallback of the
duration computation (duration 0 on an unparseable start_time) is
unreachable here because embedded rows store the parsed stamp. -/
def close_session (eid : Nat) (final_rx final_tx : Option Int) (clk : Clock)
    (s : ServerState) : ServerState :=
  match findEvent? s eid with
  | none => s
  | some ev =>
    let rx := pyOr final_rx ev.session_rx
    let tx := pyOr final_tx ev.session_tx
    let s1 := update_user_traffic_stats ev.user_id rx tx clk s
    let s2 := update_daily_traffic_stats ev.user_id rx tx 1 clk s1
    { s2 with events := s2.events.map (fun e => if e.id == eid then closeRow clk rx tx e else e) }

/-- The OPEN to OPEN traffic computation of handle_peer_online (lines 44-53):
when either current counter dropped below its baseline, rebaseline both and
report zero for this tick; otherwise report the deltas.  Returns the updated
live-map entry and the (session_rx, session_tx) pair to write. -/
def sessionDelta (ent : SessionEntry) (current_rx current_tx : Int) :
    SessionEntry × Int × Int :=
  if current_rx < ent.start_rx || current_tx < ent.start_tx then
    ({ ent with start_rx := current_rx, start_tx := current_tx }, 0, 0)
  else
    (ent, current_rx - ent.start_rx, current_tx - ent.start_tx)

/-- session_handler.handle_peer_online: resolve or create the user (an
invalid pubkey is logged and ignored); a disabled user is only marked
offline; with a live-map entry the session is updated in place
(see sessionDelta); otherwise a new event row is created, a live-map entry
installed with the current counters as baselines, and the user marked
online. -/
def handle_peer_online (clk : Clock) (pk : String) (peer : PeerInfo) (s : ServerState) :
    ServerState :=
  match get_or_create_user clk pk s with
  | Except.error _ => s
  | Except.ok (s1, uid, nick, enabled) =>
    if enabled == 0 then update_user_status uid 0 clk s1
    else
      match lookupSession s1 pk with
      | some q =>
        let d := sessionDelta q.2 peer.rx peer.tx
        let ent' := { d.1 with last_handshake := peer.handshake }
        let s2 := update_session_traffic q.2.event_id d.2.1 d.2.2 clk s1
        { s2 with sessions := s2.sessions.map (fun r => if r.1 == pk then (pk, ent') else r) }
      | none =>
        let created := create_new_session uid none peer.endpoint clk s1
        let ent : SessionEntry :=
          { event_id := created.2, start_rx := peer.rx, start_tx := peer.tx,
            last_handshake := peer.handshake, user_id := uid, nickname := nick }
        update_user_status uid 1 clk
          { created.1 with sessions := created.1.sessions ++ [(pk, ent)] }

/-- session_handler.handle_peer_offline: a pubkey without a live-map entry is
a complete no-op; otherwise close the entry's event, mark the user offline
and delete the entry.  The close reason is only logged. -/
def handle_peer_offline (pk : String) (clk : Clock) (s : ServerState) : ServerState :=
  match lookupSession s pk with
  | none => s
  | some q =>
    let s1 := close_session q.2.event_id none none clk s
    let s2 := update_user_status q.2.user_id 0 clk s1
    { s2 with sessions := s2.sessions.filter (fun r => !(r.1 == pk)) }

/-- The peer-processing part of session_handler.monitor_wireguard (lines
100-118): for each snapshot peer, fresh peers are driven through
handle_peer_online and stale ones through handle_peer_offline; afterwards
every live-map key missing from the snapshot is closed as disappeared. -/
def monitor_body (clk : Clock) (snapshot : List (String × PeerInfo))
    (max_handshake_age : Option Int) (s : ServerState) : ServerState :=
  let s1 := snapshot.foldl (fun st pq =>
      if is_peer_online clk.unix pq.2.handshake max_handshake_age then
        handle_peer_online clk pq.1 pq.2 st
      else if (lookupSession st pq.1).isSome then handle_peer_offline pq.1 clk st
      else st) s
  let activeKeys := snapshot.map (fun pq => pq.1)
  let offlineKeys := (s1.sessions.map (fun q => q.1)).filter (fun pk => !(activeKeys.contains pk))
  offlineKeys.foldl (fun st pk => handle_peer_offline pk clk st) s1

/-- session_handler.monitor_wireguard: one tick.  After the peer pass, the
system roll-up runs only when strictly more than 300 seconds have passed
since `last_stats_update`, which is then set to the tick's time.  Returns
the new state and the new last_stats_update. -/
def monitor_wireguard (clk : Clock) (snapshot : List (String × PeerInfo))
    (max_handshake_age : Option Int) (last_stats_update : Int) (s : ServerState) :
    ServerState × Int :=
  let s2 := monitor_body clk snapshot max_handshake_age s
  if clk.unix - last_stats_update > 300 then (update_system_stats clk s2, clk.unix)
  else (s2, last_stats_update)

/-- The request body of POST /api/users as the handler reads it
(`data.get(...)`; bandwidth/data limits default to 0). -/
structure CreateReq where
  peer_pubkey : Option String
  nickname : Option String
  mail : Option String
  phone : Option String
  bandwidth_limit : Int
  data_limit : Int
  expiry_date : Option String
  note : Option String
deriving DecidableEq, Repr

/-- user_manager.create_user: validate the pubkey shape, then a supplied
non-empty mail, then reject a duplicate pubkey, then allocate the next
client IP, add the peer to WireGuard (the stub succeeds), render the config
and insert the row.  Errors raised before any side effect leave the state
unchanged; the model's insert cannot fail, so the rollback branch
(remove_wg_peer on a DB error) is unreachable. -/
def create_user (clk : Clock) (pk : String) (nickname mail phone : Option String)
    (bandwidth_limit data_limit : Int) (expiry_date note : Option String)
    (s : ServerState) : ServerState × Except PyErr (Nat × String × String) :=
  if !(validate_pubkey pk) then
    (s, Except.error (PyErr.valueError "Invalid public key format"))
  else if (match mail with
           | some m => m != "" && !(validate_email m)
           | none => false) then
    (s, Except.error (PyErr.valueError "Invalid email format"))
  else if (findUserByPk? s pk).isSome then
    (s, Except.error (PyErr.valueError "Public key already exists"))
  else
    match get_next_available_ip (s.users.filterMap (fun u => u.client_ip)) with
    | Except.error e => (s, Except.error e)
    | Except.ok client_ip =>
      let added := add_wg_peer pk client_ip s
      if !added.2 then
        (added.1, Except.error (PyErr.runtimeError "Failed to add peer to WireGuard interface"))
      else
        let cfg := generate_wg_config none pk client_ip
        let uid := added.1.nextUserId
        let row : UserRow :=
          { id := uid, peer_pubkey := pk, client_ip := some client_ip, nickname := nickname,
            mail := mail, phone := phone, bandwidth_limit := bandwidth_limit,
            data_limit := data_limit, expiry_date := expiry_date, status := 0, enabled := 1,
            total_rx := 0, total_tx := 0, last_login := none, note := note,
            wg_config := some cfg, created_at := clk.unix, updated_at := clk.unix }
        ({ added.1 with users := added.1.users ++ [row], nextUserId := uid + 1 },
         Except.ok (uid, client_ip, cfg))

/-- user_manager.delete_user: unknown ids raise ValueError; otherwise every
open event of the user is closed through close_session(id, 0, 0), the first
live-map entry of the user is removed, the peer is removed from WireGuard
(failure would only be logged), and the user row is deleted.  sqlite3 is
used without PRAGMA foreign_keys, so the DELETE does not cascade. -/
def delete_user (uid : Nat) (clk : Clock) (s : ServerState) :
    ServerState × Except PyErr Unit :=
  match findUser? s uid with
  | none => (s, Except.error (PyErr.valueError "User not found"))
  | some u =>
    let activeIds := (s.events.filter (fun e => e.user_id == uid && e.end_time.isNone)).map
      (fun e => e.id)
    let s1 := activeIds.foldl (fun st eid => close_session eid (some 0) (some 0) clk st) s
    let s2 := { s1 with sessions := s1.sessions.eraseP (fun q => q.2.user_id == uid) }
    let s3 := (remove_wg_peer u.peer_pubkey s2).1
    ({ s3 with users := s3.users.filter (fun v => !(v.id == uid)) }, Except.ok ())

/-- The whitelisted kwargs of user_manager.update_user.  A field set to
`none` is absent from the request. -/
structure UserUpd where
  nickname : Option (Option String)
  mail : Option (Option String)
  phone : Option (Option String)
  bandwidth_limit : Option Int
  data_limit : Option Int
  expiry_date : Option (Option String)
  enabled : Option Nat
  note : Option (Option String)
deriving DecidableEq, Repr

def UserUpd.isEmpty (k : UserUpd) : Bool :=
  k.nickname.isNone && k.mail.isNone && k.phone.isNone && k.bandwidth_limit.isNone &&
    k.data_limit.isNone && k.expiry_date.isNone && k.enabled.isNone && k.note.isNone

/-- Application of the collected `field = ?` assignments to a user row (id
and peer_pubkey are not updatable). -/
def UserUpd.apply (k : UserUpd) (clk : Clock) (u : UserRow) : UserRow :=
  { u with
    nickname := k.nickname.getD u.nickname
    mail := k.mail.getD u.mail
    phone := k.phone.getD u.phone
    bandwidth_limit := k.bandwidth_limit.getD u.bandwidth_limit
    data_limit := k.data_limit.getD u.data_limit
    expiry_date := k.expiry_date.getD u.expiry_date
    enabled := k.enabled.getD u.enabled
    note := k.note.getD u.note
    updated_at := clk.unix }

/-- user_manager.update_user: with no whitelisted field the call returns
early; a supplied non-empty invalid mail raises before any side effect;
toggling enabled to 0 removes the peer from WireGuard and toggling to 1
re-adds it when a client_ip is stored; finally the UPDATE is applied. -/
def update_user (uid : Nat) (k : UserUpd) (clk : Clock) (s : ServerState) :
    ServerState × Except PyErr Unit :=
  if k.isEmpty then (s, Except.ok ())
  else if (match k.mail with
           | some (some m) => m != "" && !(validate_email m)
           | _ => false) then
    (s, Except.error (PyErr.valueError "Invalid email format"))
  else
    let s1 :=
      if k.enabled == some 0 then
        match findUser? s uid with
        | some u => (remove_wg_peer u.peer_pubkey s).1
        | none => s
      else if k.enabled == some 1 then
        match findUser? s uid with
        | some u =>
          match u.client_ip with
          | some ip => (add_wg_peer u.peer_pubkey ip s).1
          | none => s
        | none => s
      else s
    ({ s1 with users := s1.users.map (fun u => if u.id == uid then k.apply clk u else u) },
     Except.ok ())

/-- The reset action of api_server.handle_user_action_api: zero the user's
lifetime counters. -/
def reset_user_traffic (uid : Nat) (clk : Clock) (s : ServerState) : ServerState :=
  { s with users := s.users.map (fun u =>
      if u.id == uid then { u with total_rx := 0, total_tx := 0, updated_at := clk.unix }
      else u) }

/-- The kick action of api_server.handle_user_action_api: find the first
live-map entry of the user and close it through handle_peer_offline; without
one the call only reports info. -/
def kick_user (uid : Nat) (clk : Clock) (s : ServerState) : ServerState :=
  match s.sessions.find? (fun q => q.2.user_id == uid) with
  | some q => handle_peer_offline q.1 clk s
  | none => s

/-- The JSON envelope of the create-user endpoint, reduced to what the
claims inspect: HTTP status plus either the created ids or the error
message. -/
inductive ApiResp where
  | ok (code : Nat) (user_id : Nat) (client_ip : String)
  | err (code : Nat) (msg : String)
deriving DecidableEq, Repr

/-- api_server.handle_create_user_api: a missing peer_pubkey is a 400;
otherwise create_user runs and ValueError maps to 400, RuntimeError to 500
and anything else to a wrapped 500. -/
def handle_create_user_api (clk : Clock) (req : CreateReq) (s : ServerState) :
    ServerState × ApiResp :=
  match req.peer_pubkey with
  | none => (s, ApiResp.err 400 "Missing required fields: peer_pubkey")
  | some pk =>
    let out := create_user clk pk req.nickname req.mail req.phone req.bandwidth_limit
      req.data_limit req.expiry_date req.note s
    match out.2 with
    | Except.ok r => (out.1, ApiResp.ok 200 r.1 r.2.1)
    | Except.error (PyErr.valueError m) => (out.1, ApiResp.err 400 m)
    | Except.error (PyErr.runtimeError m) => (out.1, ApiResp.err 500 m)
    | Except.error (PyErr.indexError m) =>
      (out.1, ApiResp.err 500 ("Failed to create user: " ++ m))

/-- One mutating entry point of the process: a monitor tick, or one of the
admin mutations reachable through the HTTP API (create, update incl.
enable/disable, reset, kick, delete).  Read-only endpoints do not change
state. -/
inductive Op where
  | tick (clk : Clock) (snapshot : List (String × PeerInfo)) (maxAge : Option Int)
      (lastStats : Int)
  | create (clk : Clock) (req : CreateReq)
  | update (uid : Nat) (k : UserUpd) (clk : Clock)
  | reset (uid : Nat) (clk : Clock)
  | kick (uid : Nat) (clk : Clock)
  | delete (uid : Nat) (clk : Clock)

/-- The state transition of one entry point (responses discarded). -/
def applyOp (op : Op) (s : ServerState) : ServerState :=
  match op with
  | Op.tick clk snapshot maxAge lastStats =>
    (monitor_wireguard clk snapshot maxAge lastStats s).1
  | Op.create clk req => (handle_create_user_api clk req s).1
  | Op.update uid k clk => (update_user uid k clk s).1
  | Op.reset uid clk => reset_user_traffic uid clk s
  | Op.kick uid clk => kick_user uid clk s
  | Op.delete uid clk => (delete_user uid clk s).1

/-- The states a run can reach: any interleaving of the entry points
starting from the empty store. -/
inductive Reachable : ServerState → Prop where
  | init : Reachable initState
  | step (op : Op) {s : ServerState} : Reachable s → Reachable (applyOp op s)

/-- The inductive invariant of the run: table keys are unique and fresh
below the AUTOINCREMENT counters; every live-map entry points at an
existing user with its pubkey and at an open event of that user; and every
open event is pointed at by a live-map entry.  From these, each user has at
most one open event. -/
structure StoreInv (s : ServerState) : Prop where
  users_id_nodup : (s.users.map (fun u => u.id)).Nodup
  users_pk_nodup : (s.users.map (fun u => u.peer_pubkey)).Nodup
  users_id_lt : ∀ u ∈ s.users, u.id < s.nextUserId
  events_id_nodup : (s.events.map (fun e => e.id)).Nodup
  events_id_lt : ∀ e ∈ s.events, e.id < s.nextEventId
  sess_key_nodup : (s.sessions.map (fun q => q.1)).Nodup
  sess_user : ∀ q ∈ s.sessions, ∃ u ∈ s.users, u.id = q.2.user_id ∧ u.peer_pubkey = q.1
  sess_event : ∀ q ∈ s.sessions, ∃ e ∈ s.events, e.id = q.2.event_id ∧
    e.user_id = q.2.user_id ∧ e.end_time = none
  open_sess : ∀ e ∈ s.events, e.end_time = none → ∃ q ∈ s.sessions,
    q.2.event_id = e.id ∧ q.2.user_id = e.user_id

/-- The "at most one OPEN event per user" property: for every user id, the
events table holds at most one row with end_time NULL. -/
def atMostOneOpenPerUser (s : ServerState) : Prop :=
  ∀ uid : Nat, (s.events.filter (fun e => e.user_id == uid && e.end_time.isNone)).length ≤ 1

/-! Concrete fixtures used by witnesses and counterexamples. -/

/-- A shape-valid 44-character pubkey (43 alphabet characters and padding). -/
def wPubkey : String := "AAAAAAAAAAAAAAAAAAAAAAAAAAAAAAAAAAAAAAAAAAA="

def wClock : Clock := ⟨1000, ⟨2024, 5, 1, 12, 0, 0⟩, "2024-05-01"⟩

def wPeer : PeerInfo := ⟨1000, 500, 990, some "203.0.113.5:51820"⟩

/-- An open event whose start_time (100) lies after the close instant used
by the C3 counterexample (50). -/
def evC3 : EventRow :=
  ⟨1, 1, 100, "2024-01-01", none, 100, 7, 5, none, none, "ONLINE", 0⟩

def stC3 : ServerState := ⟨[], [evC3], [], [], [], 2, 2, []⟩

def clkC3 : Clock := ⟨50, ⟨2024, 1, 1, 0, 0, 50⟩, "2024-01-01"⟩

/-- A user fixture for the C10 witness: disabled flag 1, expiry stored as a
string strptime cannot parse. -/
def uC10 : UserRow :=
  ⟨1, wPubkey, none, some "alice", none, none, 0, 0, some "never-expires", 0, 1, 0, 0, none,
    none, none, 900, 900⟩

def stC10 : ServerState := ⟨[uC10], [], [], [], [], 2, 1, []⟩

/-- Fixtures for the C9 witness: an open event with positive stored counters
and its user. -/
def evC9 : EventRow :=
  ⟨1, 1, 900, "2024-05-01", none, 950, 2000, 1000, none, none, "ONLINE", 0⟩

def uC9 : UserRow :=
  ⟨1, wPubkey, none, none, none, none, 0, 0, none, 1, 1, 5, 6, none, none, none, 800, 900⟩

def stC9 : ServerState := ⟨[uC9], [evC9], [], [], [], 2, 2, []⟩

/-- Fixtures for the C2 witness: a user with a live session baselined at
rx=1000, tx=500 and its open event. -/
def uC2 : UserRow :=
  ⟨1, wPubkey, none, none, none, none, 0, 0, none, 1, 1, 0, 0, none, none, none, 900, 900⟩

def evC2 : EventRow :=
  ⟨1, 1, 900, "2024-05-01", none, 900, 0, 0, none, none, "ONLINE", 0⟩

def entC2 : SessionEntry := ⟨1, 1000, 500, 990, 1, "User_1"⟩

def stC2 : ServerState := ⟨[uC2], [evC2], [], [], [(wPubkey, entC2)], 2, 2, []⟩

def peerC2 : PeerInfo := ⟨3000, 1500, 995, some "203.0.113.5:51820"⟩

/-! Generic list lemmas about the row-lookup patterns of the embedding. -/

theorem find?_map_ite {α : Type} (p : α → Bool) (g : α → α)
    (hg : ∀ a, p a = true → p (g a) = true) :
    ∀ l : List α, (l.map (fun a => if p a then g a else a)).find? p = (l.find? p).map g := by
  intro l
  induction l with
  | nil => rfl
  | cons a l ih =>
    simp only [List.map_cons]
    by_cases h : p a = true
    · rw [if_pos h, List.find?_cons_of_pos _ (hg a h), List.find?_cons_of_pos _ h]
      rfl
    · rw [if_neg h, List.find?_cons_of_neg _ h, List.find?_cons_of_neg _ h, ih]

theorem find?_map_const {α : Type} (p : α → Bool) (c : α) (hc : p c = true) :
    ∀ l : List α, (l.find? p).isSome = true →
      (l.map (fun a => if p a then c else a)).find? p = some c := by
  intro l
  induction l with
  | nil => intro h; simp [List.find?] at h
  | cons a l ih =>
    intro hs
    simp only [List.map_cons]
    by_cases h : p a = true
    · rw [if_pos h, List.find?_cons_of_pos _ hc]
    · rw [List.find?_cons_of_neg _ h] at hs
      rw [if_neg h, List.find?_cons_of_neg _ h]
      exact ih hs

theorem find?_filter_not_none {α : Type} (p : α → Bool) (l : List α) :
    (l.filter (fun a => !(p a))).find? p = none := by
  apply List.find?_eq_none.mpr
  intro x hx
  have := (List.mem_filter.mp hx).2
  simp at this
  simp [this]

theorem find?_append_right_of_none {α : Type} (p : α → Bool) (l₁ l₂ : List α)
    (h : l₁.find? p = none) : (l₁ ++ l₂).find? p = l₂.find? p := by
  simp [List.find?_append, h]

theorem mem_eraseP_of_not {α : Type} (p : α → Bool) {a : α} :
    ∀ {l : List α}, a ∈ l → p a = false → a ∈ l.eraseP p := by
  intro l
  induction l with
  | nil => intro h; simp at h
  | cons b l ih =>
    intro hmem hpa
    by_cases hb : p b = true
    · rw [List.eraseP_cons_of_pos hb]
      rcases List.mem_cons.mp hmem with rfl | h
      · rw [hpa] at hb; cases hb
      · exact h
    · rw [List.eraseP_cons_of_neg hb]
      rcases List.mem_cons.mp hmem with rfl | h
      · exact List.mem_cons_self _ _
      · exact List.mem_cons_of_mem _ (ih h hpa)

/-- C5: is_peer_online is true exactly when the handshake stamp is nonzero
and its age at the probe time is at most the maximum age, which defaults to
180 seconds when the caller passes None; a zero handshake is offline for
every maximum age. -/
theorem c5_is_peer_online_iff (t h : Int) (m : Option Int) :
    (is_peer_online t h m = true ↔ (h ≠ 0 ∧ t - h ≤ m.getD 180)) ∧
      is_peer_online t 0 m = false := by
  constructor
  · unfold is_peer_online MAX_HANDSHAKE_AGE
    by_cases hh : h = 0 <;> simp [hh]
  · simp [is_peer_online]

/-- C8: closing a peer with no live-map entry changes nothing, and a second
close of the same pubkey right after a first close (at any clock) is always
a no-op, so a kick racing a tick's natural close closes at most once. -/
theorem c8_offline_noop (pk : String) (clk : Clock) (s : ServerState) :
    (lookupSession s pk = none → handle_peer_offline pk clk s = s) ∧
      (∀ clk', handle_peer_offline pk clk' (handle_peer_offline pk clk s) =
        handle_peer_offline pk clk s) := by
  constructor
  · intro h
    unfold handle_peer_offline
    rw [h]
  · intro clk'
    cases hq : lookupSession s pk with
    | none =>
      have h1 : handle_peer_offline pk clk s = s := by
        unfold handle_peer_offline
        rw [hq]
      have h2 : handle_peer_offline pk clk' s = s := by
        unfold handle_peer_offline
        rw [hq]
      rw [h1, h2]
    | some q =>
      have hnone : lookupSession (handle_peer_offline pk clk s) pk = none := by
        unfold handle_peer_offline
        rw [hq]
        unfold lookupSession
        exact find?_filter_not_none _ _
      set t := handle_peer_offline pk clk s with ht
      show handle_peer_offline pk clk' t = t
      unfold handle_peer_offline
      rw [hnone]

/-- C8 witness: a pubkey absent from the empty store's live map is a
no-op close. -/
theorem c8_offline_noop_witness :
    handle_peer_offline "A" wClock initState = initState :=
  (c8_offline_noop "A" wClock initState).1 rfl

/-- C3 counterexample: closing event 1 of stC3 (start_time 100) at clock 50
stores duration_seconds = -50, a negative duration, so the claimed clamp to
at least 0 does not exist in close_session. -/
theorem c3_counterexample :
    ((close_session 1 none none clkC3 stC3).events.find? (fun e => e.id == 1)).map
        (fun e => e.duration_seconds) = some (-50) ∧ ((-50 : Int) < 0) := by
  constructor
  · decide
  · decide

/-- C3 (amended): the duration persisted by close_session is exactly the
close instant minus the event's start_time, with no clamp: it is negative
whenever start_time lies after the close time.  (The source's fallback of
duration 0 applies only to an unparseable stored start_time, which
engine-written rows never have.) -/
theorem c3_close_duration_unclamped (eid : Nat) (finRx finTx : Option Int) (clk : Clock)
    (s : ServerState) (ev : EventRow) (hfind : findEvent? s eid = some ev) :
    ∃ ev', findEvent? (close_session eid finRx finTx clk s) eid = some ev' ∧
      ev'.duration_seconds = clk.unix - ev.start_time ∧
      ev'.end_time = some clk.unix ∧ ev'.status = "OFFLINE" := by
  have hev2 : (close_session eid finRx finTx clk s).events =
      s.events.map (fun e => if e.id == eid then
        closeRow clk (pyOr finRx ev.session_rx) (pyOr finTx ev.session_tx) e else e) := by
    simp only [close_session, hfind, update_daily_traffic_stats, update_user_traffic_stats]
  refine ⟨closeRow clk (pyOr finRx ev.session_rx) (pyOr finTx ev.session_tx) ev, ?_, rfl, rfl, rfl⟩
  unfold findEvent?
  rw [hev2]
  exact (find?_map_ite (fun e => e.id == eid)
      (closeRow clk (pyOr finRx ev.session_rx) (pyOr finTx ev.session_tx)) (fun a ha => ha)
      s.events).trans
    (by rw [show s.events.find? (fun e => e.id == eid) = some ev from hfind])

/-- C3 witness for the amended statement: the concrete close of the C3
fixture returns the unclamped difference. -/
theorem c3_close_duration_unclamped_witness :
    ∃ ev', findEvent? (close_session 1 none none clkC3 stC3) 1 = some ev' ∧
      ev'.duration_seconds = clkC3.unix - evC3.start_time ∧
      ev'.end_time = some clkC3.unix ∧ ev'.status = "OFFLINE" :=
  c3_close_duration_unclamped 1 none none clkC3 stC3 evC3 (by decide)

/-- C9: close_session with explicit final counts of 0 behaves exactly like
close_session with absent final counts (Python `0 or stored = stored`), as
delete_user invokes it: the stored session counters are added to the user's
lifetime totals and to today's traffic row (session_count + 1), and the
closed event row keeps those stored counters — a final 0 never overrides a
positive stored count. -/
theorem c9_close_zero_equals_none (eid : Nat) (clk : Clock) (s : ServerState) (ev : EventRow)
    (u : UserRow) (hfind : findEvent? s eid = some ev)
    (hu : s.users.find? (fun v => v.id == ev.user_id) = some u) :
    close_session eid (some 0) (some 0) clk s = close_session eid none none clk s ∧
      (close_session eid (some 0) (some 0) clk s).users.find? (fun v => v.id == ev.user_id) =
        some { u with total_rx := u.total_rx + ev.session_rx,
                      total_tx := u.total_tx + ev.session_tx,
                      last_login := some clk.unix, updated_at := clk.unix } ∧
      (∃ t, (close_session eid (some 0) (some 0) clk s).traffic.find?
            (fun r => r.user_id == ev.user_id && r.date == clk.today) = some t ∧
        t.daily_rx =
          (match s.traffic.find? (fun r => r.user_id == ev.user_id && r.date == clk.today) with
           | some o => o.daily_rx
           | none => 0) + ev.session_rx ∧
        t.daily_tx =
          (match s.traffic.find? (fun r => r.user_id == ev.user_id && r.date == clk.today) with
           | some o => o.daily_tx
           | none => 0) + ev.session_tx ∧
        t.session_count =
          (match s.traffic.find? (fun r => r.user_id == ev.user_id && r.date == clk.today) with
           | some o => o.session_count
           | none => 0) + 1) ∧
      (∃ ev', findEvent? (close_session eid (some 0) (some 0) clk s) eid = some ev' ∧
        ev'.session_rx = ev.session_rx ∧ ev'.session_tx = ev.session_tx ∧
        ev'.end_time = some clk.unix) := by
  have hpy : ∀ b : Int, pyOr (some 0) b = b := fun b => rfl
  have hpred : (u.id == ev.user_id) = true := by
    have := List.find?_some hu
    simpa using this
  refine ⟨rfl, ?_, ?_, ?_⟩
  · have husers : (close_session eid (some 0) (some 0) clk s).users =
        s.users.map (fun v => if v.id == ev.user_id then
          { v with total_rx := v.total_rx + ev.session_rx,
                   total_tx := v.total_tx + ev.session_tx,
                   last_login := some clk.unix, updated_at := clk.unix } else v) := by
      simp only [close_session, hfind, update_daily_traffic_stats, update_user_traffic_stats,
        hpy]
    rw [husers]
    rw [find?_map_ite (fun v => v.id == ev.user_id)
      (fun v => { v with total_rx := v.total_rx + ev.session_rx,
                         total_tx := v.total_tx + ev.session_tx,
                         last_login := some clk.unix, updated_at := clk.unix })
      (fun a ha => ha) s.users]
    rw [hu]
    simp [hpred]
  · have htraffic : (close_session eid (some 0) (some 0) clk s).traffic =
        (s.traffic.filter (fun r => !(r.user_id == ev.user_id && r.date == clk.today))) ++
          [{ user_id := ev.user_id, date := clk.today
             daily_rx :=
               (match s.traffic.find? (fun r => r.user_id == ev.user_id && r.date == clk.today) with
                | some o => o.daily_rx
                | none => 0) + ev.session_rx
             daily_tx :=
               (match s.traffic.find? (fun r => r.user_id == ev.user_id && r.date == clk.today) with
                | some o => o.daily_tx
                | none => 0) + ev.session_tx
             session_count :=
               (match s.traffic.find? (fun r => r.user_id == ev.user_id && r.date == clk.today) with
                | some o => o.session_count
                | none => 0) + 1
             created_at :=
               (match s.traffic.find? (fun r => r.user_id == ev.user_id && r.date == clk.today) with
                | some o => o.created_at
                | none => clk.unix)
             updated_at := clk.unix }] := by
      simp only [close_session, hfind, update_daily_traffic_stats, update_user_traffic_stats,
        hpy]
    refine ⟨{ user_id := ev.user_id, date := clk.today
              daily_rx :=
                (match s.traffic.find? (fun r => r.user_id == ev.user_id && r.date == clk.today) with
                 | some o => o.daily_rx
                 | none => 0) + ev.session_rx
              daily_tx :=
                (match s.traffic.find? (fun r => r.user_id == ev.user_id && r.date == clk.today) with
                 | some o => o.daily_tx
                 | none => 0) + ev.session_tx
              session_count :=
                (match s.traffic.find? (fun r => r.user_id == ev.user_id && r.date == clk.today) with
                 | some o => o.session_count
                 | none => 0) + 1
              created_at :=
                (match s.traffic.find? (fun r => r.user_id == ev.user_id && r.date == clk.today) with
                 | some o => o.created_at
                 | none => clk.unix)
              updated_at := clk.unix }, ?_, rfl, rfl, rfl⟩
    rw [htraffic,
      find?_append_right_of_none _ _ _ (find?_filter_not_none _ s.traffic)]
    simp [List.find?]
  · refine ⟨closeRow clk ev.session_rx ev.session_tx ev, ?_, rfl, rfl, rfl⟩
    have hevents : (close_session eid (some 0) (some 0) clk s).events =
        s.events.map (fun e => if e.id == eid then
          closeRow clk ev.session_rx ev.session_tx e else e) := by
      simp only [close_session, hfind, update_daily_traffic_stats, update_user_traffic_stats,
        hpy]
    unfold findEvent?
    rw [hevents]
    exact (find?_map_ite (fun e => e.id == eid)
        (closeRow clk ev.session_rx ev.session_tx) (fun a ha => ha) s.events).trans
      (by rw [show s.events.find? (fun e => e.id == eid) = some ev from hfind])

/-- C9 witness: closing the fixture event with final counts 0 adds the
stored 2000/1000 bytes to the user's totals. -/
theorem c9_close_zero_equals_none_witness :
    (close_session 1 (some 0) (some 0) wClock stC9).users.find?
        (fun v => v.id == evC9.user_id) =
      some { uC9 with total_rx := uC9.total_rx + evC9.session_rx,
                      total_tx := uC9.total_tx + evC9.session_tx,
                      last_login := some wClock.unix, updated_at := wClock.unix } :=
  (c9_close_zero_equals_none 1 wClock stC9 evC9 uC9 (by decide) (by decide)).2.1

theorem sessionDelta_reset (ent : SessionEntry) (rx tx : Int)
    (h : rx < ent.start_rx ∨ tx < ent.start_tx) :
    sessionDelta ent rx tx = ({ ent with start_rx := rx, start_tx := tx }, 0, 0) := by
  unfold sessionDelta
  rw [if_pos]
  simpa using h

theorem sessionDelta_delta (ent : SessionEntry) (rx tx : Int)
    (h1 : ent.start_rx ≤ rx) (h2 : ent.start_tx ≤ tx) :
    sessionDelta ent rx tx = (ent, rx - ent.start_rx, tx - ent.start_tx) := by
  unfold sessionDelta
  rw [if_neg]
  simp only [Bool.or_eq_true, decide_eq_true_eq, not_or, not_lt]
  exact ⟨h1, h2⟩

theorem sessionDelta_nonneg (ent : SessionEntry) (rx tx : Int) :
    0 ≤ (sessionDelta ent rx tx).2.1 ∧ 0 ≤ (sessionDelta ent rx tx).2.2 := by
  by_cases h : rx < ent.start_rx ∨ tx < ent.start_tx
  · rw [sessionDelta_reset ent rx tx h]
    exact ⟨le_refl 0, le_refl 0⟩
  · push_neg at h
    rw [sessionDelta_delta ent rx tx h.1 h.2]
    exact ⟨by simpa using h.1, by simpa using h.2⟩

/-- C2: on an OPEN to OPEN update of a live session, the engine writes zeros
and rebaselines both start counters whenever either current counter is below
its baseline, and otherwise writes the two deltas and keeps the baselines;
the written session_rx/session_tx are never negative. -/
theorem c2_open_update (clk : Clock) (pk : String) (peer : PeerInfo) (s s' : ServerState)
    (uid : Nat) (nick : String) (en : Nat) (q : String × SessionEntry) (ev : EventRow)
    (hg : get_or_create_user clk pk s = Except.ok (s', uid, nick, en))
    (hen : (en == 0) = false)
    (hq : lookupSession s' pk = some q)
    (hev : s'.events.find? (fun e => e.id == q.2.event_id) = some ev) :
    ∃ ev' ent',
      (handle_peer_online clk pk peer s).events.find?
          (fun e => e.id == q.2.event_id) = some ev' ∧
      lookupSession (handle_peer_online clk pk peer s) pk = some (pk, ent') ∧
      0 ≤ ev'.session_rx ∧ 0 ≤ ev'.session_tx ∧
      ((peer.rx < q.2.start_rx ∨ peer.tx < q.2.start_tx) →
        ev'.session_rx = 0 ∧ ev'.session_tx = 0 ∧
        ent'.start_rx = peer.rx ∧ ent'.start_tx = peer.tx) ∧
      (q.2.start_rx ≤ peer.rx ∧ q.2.start_tx ≤ peer.tx →
        ev'.session_rx = peer.rx - q.2.start_rx ∧ ev'.session_tx = peer.tx - q.2.start_tx ∧
        ent'.start_rx = q.2.start_rx ∧ ent'.start_tx = q.2.start_tx) := by
  have hres_events : (handle_peer_online clk pk peer s).events =
      s'.events.map (fun e => if e.id == q.2.event_id then
        { e with last_update := clk.unix,
                 session_rx := (sessionDelta q.2 peer.rx peer.tx).2.1,
                 session_tx := (sessionDelta q.2 peer.rx peer.tx).2.2 } else e) := by
    simp only [handle_peer_online, hg, hen, Bool.false_eq_true, if_neg, not_false_iff, hq,
      update_session_traffic]
  have hres_sessions : (handle_peer_online clk pk peer s).sessions =
      s'.sessions.map (fun r => if r.1 == pk then
        (pk, { (sessionDelta q.2 peer.rx peer.tx).1 with last_handshake := peer.handshake })
        else r) := by
    simp only [handle_peer_online, hg, hen, Bool.false_eq_true, if_neg, not_false_iff, hq,
      update_session_traffic]
  refine ⟨({ ev with
             last_update := clk.unix,
             session_rx := (sessionDelta q.2 peer.rx peer.tx).2.1,
             session_tx := (sessionDelta q.2 peer.rx peer.tx).2.2 }),
          ({ (sessionDelta q.2 peer.rx peer.tx).1 with last_handshake := peer.handshake }),
          ?_, ?_, (sessionDelta_nonneg q.2 peer.rx peer.tx).1,
          (sessionDelta_nonneg q.2 peer.rx peer.tx).2, ?_, ?_⟩
  · rw [hres_events]
    exact (find?_map_ite (fun e => e.id == q.2.event_id)
        (fun e => { e with
                    last_update := clk.unix,
                    session_rx := (sessionDelta q.2 peer.rx peer.tx).2.1,
                    session_tx := (sessionDelta q.2 peer.rx peer.tx).2.2 })
        (fun a ha => ha) s'.events).trans (by rw [hev])
  · unfold lookupSession
    rw [hres_sessions]
    exact find?_map_const (fun r => r.1 == pk)
      (pk, { (sessionDelta q.2 peer.rx peer.tx).1 with last_handshake := peer.handshake })
      (by simp) s'.sessions
      (by unfold lookupSession at hq
          rw [hq]
          rfl)
  · intro hbr
    rw [sessionDelta_reset q.2 peer.rx peer.tx hbr]
    exact ⟨rfl, rfl, rfl, rfl⟩
  · intro hbr
    rw [sessionDelta_delta q.2 peer.rx peer.tx hbr.1 hbr.2]
    exact ⟨rfl, rfl, rfl, rfl⟩

/-- C2 witness: the fixture's OPEN to OPEN update with grown counters writes
the deltas 2000/1000 and keeps the baselines; nothing negative appears. -/
theorem c2_open_update_witness :
    ∃ ev' ent',
      (handle_peer_online wClock wPubkey peerC2 stC2).events.find?
          (fun e => e.id == 1) = some ev' ∧
      lookupSession (handle_peer_online wClock wPubkey peerC2 stC2) wPubkey =
        some (wPubkey, ent') ∧
      0 ≤ ev'.session_rx ∧ 0 ≤ ev'.session_tx ∧
      ((peerC2.rx < 1000 ∨ peerC2.tx < 500) →
        ev'.session_rx = 0 ∧ ev'.session_tx = 0 ∧
        ent'.start_rx = peerC2.rx ∧ ent'.start_tx = peerC2.tx) ∧
      ((1000 : Int) ≤ peerC2.rx ∧ (500 : Int) ≤ peerC2.tx →
        ev'.session_rx = peerC2.rx - 1000 ∧ ev'.session_tx = peerC2.tx - 500 ∧
        ent'.start_rx = 1000 ∧ ent'.start_tx = 500) :=
  c2_open_update wClock wPubkey peerC2 stC2 stC2 1 "User_1" 1 (wPubkey, entC2) evC2
    rfl (by decide) (by decide) (by decide)

theorem charListLt_irrefl : ∀ l : List Char, charListLt l l = false
  | [] => rfl
  | a :: as => by
    simp only [charListLt, lt_irrefl a, if_false, charListLt_irrefl as, if_neg (lt_irrefl a)]

theorem charListLt_trans : ∀ {l1 l2 l3 : List Char}, charListLt l1 l2 = true →
    charListLt l2 l3 = true → charListLt l1 l3 = true
  | _, [], _, h1, _ => by simp [charListLt] at h1
  | _ :: _, _, [], _, h2 => by simp [charListLt] at h2
  | [], _ :: _, _ :: _, _, _ => rfl
  | a :: as, b :: bs, c :: cs, h1, h2 => by
    simp only [charListLt] at h1 h2 ⊢
    by_cases hab : a < b
    · by_cases hbc : b < c
      · rw [if_pos (lt_trans hab hbc)]
      · by_cases hcb : c < b
        · rw [if_neg hbc, if_pos hcb] at h2
          cases h2
        · have heq : b = c := le_antisymm (le_of_not_lt hcb) (le_of_not_lt hbc)
          subst heq
          rw [if_pos hab]
    · by_cases hba : b < a
      · rw [if_neg hab, if_pos hba] at h1
        cases h1
      · have heq : a = b := le_antisymm (le_of_not_lt hba) (le_of_not_lt hab)
        subst heq
        rw [if_neg hab, if_neg hba] at h1
        by_cases hac : a < c
        · rw [if_pos hac]
        · by_cases hca : c < a
          · rw [if_neg hac, if_pos hca] at h2
            cases h2
          · rw [if_neg hac, if_neg hca] at h2 ⊢
            exact charListLt_trans h1 h2

theorem charListLt_connex : ∀ {l1 l2 : List Char}, charListLt l1 l2 = false →
    charListLt l2 l1 = false → l1 = l2
  | [], [], _, _ => rfl
  | [], _ :: _, h1, _ => by simp [charListLt] at h1
  | _ :: _, [], _, h2 => by simp [charListLt] at h2
  | a :: as, b :: bs, h1, h2 => by
    simp only [charListLt] at h1 h2
    by_cases hab : a < b
    · rw [if_pos hab] at h1; cases h1
    · by_cases hba : b < a
      · rw [if_pos hba] at h2; cases h2
      · have hab' : a = b := le_antisymm (le_of_not_lt hba) (le_of_not_lt hab)
        subst hab'
        rw [if_neg hab, if_neg hab] at h1 h2
        rw [charListLt_connex h1 h2]

theorem pyStrLe_refl (a : String) : pyStrLe a a = true := by
  simp [pyStrLe]

theorem pyStrLe_total (a b : String) : pyStrLe a b = true ∨ pyStrLe b a = true := by
  by_cases h1 : charListLt a.data b.data = true
  · exact Or.inl (by simp [pyStrLe, h1])
  · by_cases h2 : charListLt b.data a.data = true
    · exact Or.inr (by simp [pyStrLe, h2])
    · left
      have he := charListLt_connex (by simpa using h1) (by simpa using h2)
      have hab : a = b := congrArg String.mk he
      simp [pyStrLe, hab]

theorem pyStrLe_antisymm {a b : String} (h1 : pyStrLe a b = true) (h2 : pyStrLe b a = true) :
    a = b := by
  simp only [pyStrLe, Bool.or_eq_true, beq_iff_eq] at h1 h2
  rcases h1 with h1 | h1
  · exact h1
  · rcases h2 with h2 | h2
    · exact h2.symm
    · have := charListLt_trans h1 h2
      rw [charListLt_irrefl] at this
      cases this

theorem pyStrLe_trans {a b c : String} (h1 : pyStrLe a b = true) (h2 : pyStrLe b c = true) :
    pyStrLe a c = true := by
  simp only [pyStrLe, Bool.or_eq_true, beq_iff_eq] at h1 h2 ⊢
  rcases h1 with h1 | h1
  · subst h1; exact h2
  · rcases h2 with h2 | h2
    · subst h2; exact Or.inr h1
    · exact Or.inr (charListLt_trans h1 h2)

theorem mem_pyInsort {x y : String} : ∀ {l : List String},
    y ∈ pyInsort x l ↔ y = x ∨ y ∈ l := by
  intro l
  induction l with
  | nil => simp [pyInsort]
  | cons a l ih =>
    by_cases h : pyStrLe x a = true
    · simp [pyInsort, h, List.mem_cons]
    · simp only [pyInsort, if_neg h, List.mem_cons, ih]
      tauto

theorem mem_pySort {y : String} : ∀ {l : List String}, y ∈ pySort l ↔ y ∈ l := by
  intro l
  induction l with
  | nil => simp [pySort]
  | cons a l ih =>
    simp only [pySort, mem_pyInsort, List.mem_cons, ih]

theorem pairwise_pyInsort (x : String) : ∀ {l : List String},
    l.Pairwise (fun a b => pyStrLe a b = true) →
    (pyInsort x l).Pairwise (fun a b => pyStrLe a b = true) := by
  intro l
  induction l with
  | nil => intro _; simp [pyInsort]
  | cons a l ih =>
    intro hp
    rcases List.pairwise_cons.mp hp with ⟨ha, hl⟩
    by_cases h : pyStrLe x a = true
    · rw [pyInsort, if_pos h]
      refine List.pairwise_cons.mpr ⟨?_, hp⟩
      intro b hb
      rcases List.mem_cons.mp hb with rfl | hb
      · exact h
      · exact pyStrLe_trans h (ha b hb)
    · rw [pyInsort, if_neg h]
      refine List.pairwise_cons.mpr ⟨?_, ih hl⟩
      intro b hb
      rcases mem_pyInsort.mp hb with rfl | hb
      · rcases pyStrLe_total b a with h' | h'
        · exact absurd h' h
        · exact h'
      · exact ha b hb

theorem pairwise_pySort : ∀ l : List String,
    (pySort l).Pairwise (fun a b => pyStrLe a b = true)
  | [] => List.Pairwise.nil
  | a :: l => pairwise_pyInsort a (pairwise_pySort l)

theorem getLastD_mem {α : Type} : ∀ (l : List α) (d : α), l ≠ [] → l.getLastD d ∈ l
  | [], _, h => absurd rfl h
  | [a], d, _ => by simp [List.getLastD]
  | a :: b :: t, d, _ => by
    have := getLastD_mem (b :: t) a (by simp)
    simp only [List.getLastD] at this ⊢
    exact List.mem_cons_of_mem a this

theorem pairwise_le_getLastD {l : List String}
    (hp : l.Pairwise (fun a b => pyStrLe a b = true)) {x : String} (hx : x ∈ l) :
    pyStrLe x (l.getLastD "") = true := by
  induction l with
  | nil => simp at hx
  | cons a l ih =>
    rcases List.pairwise_cons.mp hp with ⟨ha, hl⟩
    cases l with
    | nil =>
      rcases List.mem_cons.mp hx with rfl | hx
      · exact pyStrLe_refl x
      · simp at hx
    | cons b t =>
      have hlast : (a :: b :: t).getLastD "" = (b :: t).getLastD "" := by
        simp [List.getLastD]
      rw [hlast]
      rcases List.mem_cons.mp hx with rfl | hx
      · exact ha _ (getLastD_mem (b :: t) "" (by simp))
      · exact ih hl hx

theorem pySort_ne_nil {l : List String} (h : l ≠ []) : pySort l ≠ [] := by
  rcases List.exists_cons_of_ne_nil h with ⟨a, t, rfl⟩
  intro hc
  have : a ∈ pySort (a :: t) := mem_pySort.mpr (List.mem_cons_self a t)
  rw [hc] at this
  simp at this

/-- C4 counterexample: with assigned IPs 10.0.0.9 and 10.0.0.10 the
allocator returns 10.0.0.10 — an address already in the set — because it
sorts the strings lexicographically ("10.0.0.10" < "10.0.0.9") and
increments the last octet of "10.0.0.9", not the maximum octet 10. -/
theorem c4_counterexample :
    get_next_available_ip ["10.0.0.9", "10.0.0.10"] = Except.ok "10.0.0.10" ∧
      "10.0.0.10" ∈ ["10.0.0.9", "10.0.0.10"] := by
  constructor
  · rfl
  · simp

/-- C4 (amended): when no client_ip is assigned the allocator returns
10.0.0.2; otherwise it takes the LEXICOGRAPHICALLY greatest assigned IP
string (not the one with the greatest last octet), parses that string's
last dot-separated field as an integer, and returns its prefix with that
integer plus one — failing only when that value would exceed 254.  The
result can collide with an already-assigned IP, so allocations are not
always unique. -/
theorem c4_ip_allocation_lexmax (ips : List String) (m : String)
    (hne : ips ≠ []) (hmem : m ∈ ips) (hub : ∀ x ∈ ips, pyStrLe x m = true)
    (p0 p1 p2 d : List Char) (hsplit : splitOnChar '.' m.toList = [p0, p1, p2, d])
    (n : Int) (hn : pyInt? d = some n) :
    (get_next_available_ip ips =
      (if n + 1 > 254 then Except.error (PyErr.valueError "No available IP addresses")
       else Except.ok (String.mk p0 ++ "." ++ String.mk p1 ++ "." ++ String.mk p2 ++ "." ++
         toString (n + 1)))) ∧
      get_next_available_ip [] = Except.ok "10.0.0.2" := by
  have hlast : (pySort ips).getLastD "" = m := by
    have h1 : (pySort ips).getLastD "" ∈ pySort ips :=
      getLastD_mem _ _ (pySort_ne_nil hne)
    have h2 : (pySort ips).getLastD "" ∈ ips := mem_pySort.mp h1
    have h3 : pyStrLe ((pySort ips).getLastD "") m = true := hub _ h2
    have h4 : pyStrLe m ((pySort ips).getLastD "") = true :=
      pairwise_le_getLastD (pairwise_pySort ips) (mem_pySort.mpr hmem)
    exact pyStrLe_antisymm h3 h4
  constructor
  · rcases List.exists_cons_of_ne_nil hne with ⟨p, ps, rfl⟩
    show (let sorted := pySort (p :: ps)
          let last_ip := sorted.getLastD ""
          let parts := splitOnChar '.' last_ip.toList
          match parts.get? 3 with
          | none => Except.error (PyErr.indexError "list index out of range")
          | some octetStr =>
            match pyInt? octetStr with
            | none =>
              Except.error (PyErr.valueError ("invalid literal for int: " ++ String.mk octetStr))
            | some last_octet =>
              let next_octet := last_octet + 1
              if next_octet > 254 then Except.error (PyErr.valueError "No available IP addresses")
              else
                Except.ok (String.mk (parts.getD 0 []) ++ "." ++ String.mk (parts.getD 1 []) ++
                  "." ++ String.mk (parts.getD 2 []) ++ "." ++ toString next_octet)) = _
    simp only [hlast, hsplit]
    simp only [show ([p0, p1, p2, d].get? 3) = some d from rfl, hn]
    rfl
  · rfl

/-- C4 witness for the amended statement: with assigned IPs 10.0.0.2 and
10.0.0.3, the lexicographic maximum is 10.0.0.3 and the allocator returns
10.0.0.4. -/
theorem c4_ip_allocation_lexmax_witness :
    get_next_available_ip ["10.0.0.2", "10.0.0.3"] =
      (if (3 : Int) + 1 > 254 then Except.error (PyErr.valueError "No available IP addresses")
       else Except.ok (String.mk ['1', '0'] ++ "." ++ String.mk ['0'] ++ "." ++
         String.mk ['0'] ++ "." ++ toString ((3 : Int) + 1))) :=
  (c4_ip_allocation_lexmax ["10.0.0.2", "10.0.0.3"] "10.0.0.3" (by simp) (by simp)
    (by decide) ['1', '0'] ['0'] ['0'] ['3'] (by decide) 3 (by decide)).1

/-- C7 counterexample: a tick exactly 300 seconds after the last heartbeat
(clock 300, last_stats_update 0) does NOT run the system roll-up and leaves
the heartbeat at 0 — the code requires strictly more than 300 seconds,
while the claim includes exactly 300. -/
theorem c7_counterexample :
    (monitor_wireguard ⟨300, ⟨2024, 5, 1, 12, 0, 0⟩, "2024-05-01"⟩ [] none 0 initState).2 = 0 ∧
      (monitor_wireguard ⟨300, ⟨2024, 5, 1, 12, 0, 0⟩, "2024-05-01"⟩ [] none 0
          initState).1.system_stats = [] ∧
      (300 : Int) - 0 = 300 := by
  refine ⟨?_, ?_, rfl⟩
  · rfl
  · rfl

/-- C7 (amended): the tick invokes the Statistics Aggregator's roll-up and
records the tick time as the new heartbeat exactly when STRICTLY more than
300 seconds have elapsed since the last heartbeat; at 300 seconds or less
(including exactly 300) nothing is invoked and the heartbeat is unchanged.
When it runs, the roll-up upserts today's system_stats row with
peak_concurrent = max(previous value for today, live-map size). -/
theorem c7_heartbeat (clk : Clock) (snapshot : List (String × PeerInfo)) (maxAge : Option Int)
    (lastStats : Int) (s : ServerState) :
    (300 < clk.unix - lastStats →
      (monitor_wireguard clk snapshot maxAge lastStats s).2 = clk.unix ∧
      (monitor_wireguard clk snapshot maxAge lastStats s).1 =
        update_system_stats clk (monitor_body clk snapshot maxAge s) ∧
      ((monitor_wireguard clk snapshot maxAge lastStats s).1.system_stats.find?
          (fun r => r.date == clk.today)).map (fun r => r.peak_concurrent) =
        some (max (match (monitor_body clk snapshot maxAge s).system_stats.find?
                     (fun r => r.date == clk.today) with
                   | some o => o.peak_concurrent
                   | none => 0)
              ((monitor_body clk snapshot maxAge s).sessions.length : Int))) ∧
    (clk.unix - lastStats ≤ 300 →
      (monitor_wireguard clk snapshot maxAge lastStats s).2 = lastStats ∧
      (monitor_wireguard clk snapshot maxAge lastStats s).1.system_stats =
        (monitor_body clk snapshot maxAge s).system_stats) := by
  constructor
  · intro h
    have hm : monitor_wireguard clk snapshot maxAge lastStats s =
        (update_system_stats clk (monitor_body clk snapshot maxAge s), clk.unix) := by
      unfold monitor_wireguard
      rw [if_pos h]
    refine ⟨by rw [hm], by rw [hm], ?_⟩
    rw [hm]
    have hfr : (update_system_stats clk
        (monitor_body clk snapshot maxAge s)).system_stats.find?
          (fun r => r.date == clk.today) ≠ none := by
      unfold update_system_stats
      rw [find?_append_right_of_none _ _ _ (find?_filter_not_none _ _)]
      rw [List.find?_cons_of_pos _ (by simp)]
      simp
    rcases Option.ne_none_iff_exists'.mp hfr with ⟨row, hrow⟩
    have hrow2 : (update_system_stats clk
        (monitor_body clk snapshot maxAge s)).system_stats.find?
          (fun r => r.date == clk.today) = some row := hrow
    unfold update_system_stats at hrow2
    rw [find?_append_right_of_none _ _ _ (find?_filter_not_none _ _),
      List.find?_cons_of_pos _ (by simp)] at hrow2
    show ((update_system_stats clk
        (monitor_body clk snapshot maxAge s)).system_stats.find?
          (fun r => r.date == clk.today)).map (fun r => r.peak_concurrent) = _
    rw [hrow]
    rw [show row = _ from (Option.some_inj.mp hrow2).symm]
    rfl
  · intro h
    have hm : monitor_wireguard clk snapshot maxAge lastStats s =
        (monitor_body clk snapshot maxAge s, lastStats) := by
      unfold monitor_wireguard
      rw [if_neg (by omega)]
    rw [hm]
    exact ⟨rfl, rfl⟩

/-- C7 witness for the amended statement: at clock 301 with heartbeat 0 the
roll-up runs and the heartbeat becomes 301; at clock 300 it does not. -/
theorem c7_heartbeat_witness :
    (monitor_wireguard ⟨301, ⟨2024, 5, 1, 12, 0, 1⟩, "2024-05-01"⟩ [] none 0 initState).2 =
        (301 : Int) ∧
      (monitor_wireguard ⟨299, ⟨2024, 5, 1, 11, 59, 59⟩, "2024-05-01"⟩ [] none 0
          initState).2 = (0 : Int) :=
  ⟨((c7_heartbeat ⟨301, ⟨2024, 5, 1, 12, 0, 1⟩, "2024-05-01"⟩ [] none 0 initState).1
      (by norm_num)).1,
    ((c7_heartbeat ⟨299, ⟨2024, 5, 1, 11, 59, 59⟩, "2024-05-01"⟩ [] none 0 initState).2
      (by norm_num)).1⟩

/-- C6 counterexample: a create request whose pubkey already exists but
whose mail is shape-invalid is rejected with "Invalid email format", not
"Public key already exists" — the email check precedes the duplicate check
in create_user. -/
theorem c6_counterexample :
    (handle_create_user_api wClock
        ⟨some wPubkey, none, some "not-an-email", none, 0, 0, none, none⟩ stC10).2 =
      ApiResp.err 400 "Invalid email format" ∧
      ApiResp.err 400 "Invalid email format" ≠ ApiResp.err 400 "Public key already exists" := by
  constructor
  · rfl
  · decide

/-- C6 (amended): for every create request whose pubkey is already in the
users table, the handler answers 400, no users row is inserted and the
adapter is never called (the returned state — wgLog included — is exactly
the input state); the error message is "Public key already exists" provided
a supplied mail passes the shape check (otherwise it is the email
validation error, still a 400 with no side effect). -/
theorem c6_duplicate_pubkey (clk : Clock) (req : CreateReq) (pk : String) (s : ServerState)
    (hpk : req.peer_pubkey = some pk)
    (hval : validate_pubkey pk = true)
    (hdup : (findUserByPk? s pk).isSome = true) :
    (handle_create_user_api clk req s).1 = s ∧
      (∃ msg, (handle_create_user_api clk req s).2 = ApiResp.err 400 msg) ∧
      ((match req.mail with
        | some m => m = "" ∨ validate_email m = true
        | none => True) →
        (handle_create_user_api clk req s).2 = ApiResp.err 400 "Public key already exists") := by
  by_cases hg : (match req.mail with
      | some m => m != "" && !(validate_email m)
      | none => false) = true
  · have hcu : create_user clk pk req.nickname req.mail req.phone req.bandwidth_limit
        req.data_limit req.expiry_date req.note s =
        (s, Except.error (PyErr.valueError "Invalid email format")) := by
      unfold create_user
      rw [if_neg (by rw [hval]; simp), if_pos hg]
    refine ⟨?_, ⟨"Invalid email format", ?_⟩, ?_⟩
    · simp only [handle_create_user_api, hpk, hcu]
    · simp only [handle_create_user_api, hpk, hcu]
    · intro hmail
      exfalso
      revert hg hmail
      cases req.mail with
      | none => intro hg _; simp at hg
      | some m =>
        intro hg hmail
        simp only [Bool.and_eq_true, bne_iff_ne, Bool.not_eq_true'] at hg
        rcases hmail with hmail | hmail
        · exact hg.1 hmail
        · rw [hmail] at hg
          cases hg.2
  · have hcu : create_user clk pk req.nickname req.mail req.phone req.bandwidth_limit
        req.data_limit req.expiry_date req.note s =
        (s, Except.error (PyErr.valueError "Public key already exists")) := by
      unfold create_user
      rw [if_neg (by rw [hval]; simp), if_neg hg, if_pos hdup]
    refine ⟨?_, ⟨"Public key already exists", ?_⟩, ?_⟩
    · simp only [handle_create_user_api, hpk, hcu]
    · simp only [handle_create_user_api, hpk, hcu]
    · intro _
      simp only [handle_create_user_api, hpk, hcu]

/-- C6 witness for the amended statement: a duplicate-pubkey request with no
mail against the stC10 store is answered 400 "Public key already exists"
with the state unchanged. -/
theorem c6_duplicate_pubkey_witness :
    (handle_create_user_api wClock ⟨some wPubkey, none, none, none, 0, 0, none, none⟩
        stC10).1 = stC10 ∧
      (handle_create_user_api wClock ⟨some wPubkey, none, none, none, 0, 0, none, none⟩
          stC10).2 = ApiResp.err 400 "Public key already exists" := by
  refine ⟨(c6_duplicate_pubkey wClock _ wPubkey stC10 rfl (by decide) (by decide)).1, ?_⟩
  exact (c6_duplicate_pubkey wClock _ wPubkey stC10 rfl (by decide) (by decide)).2.2 trivial

theorem nodup_map_inj {α β : Type} {f : α → β} {l : List α} (h : (l.map f).Nodup)
    {x y : α} (hx : x ∈ l) (hy : y ∈ l) (hf : f x = f y) : x = y :=
  List.inj_on_of_nodup_map h hx hy hf

/-- Two live-map entries of the same user are the same entry. -/
theorem StoreInv.entry_unique {s : ServerState} (h : StoreInv s)
    {q1 q2 : String × SessionEntry} (h1 : q1 ∈ s.sessions) (h2 : q2 ∈ s.sessions)
    (heq : q1.2.user_id = q2.2.user_id) : q1 = q2 := by
  obtain ⟨u1, hu1, hid1, hpk1⟩ := h.sess_user q1 h1
  obtain ⟨u2, hu2, hid2, hpk2⟩ := h.sess_user q2 h2
  have huu : u1 = u2 := nodup_map_inj h.users_id_nodup hu1 hu2 (by rw [hid1, hid2, heq])
  have hkey : q1.1 = q2.1 := by rw [← hpk1, ← hpk2, huu]
  exact nodup_map_inj h.sess_key_nodup h1 h2 hkey

/-- Two open events of the same user are the same row. -/
theorem StoreInv.open_unique {s : ServerState} (h : StoreInv s) {e1 e2 : EventRow}
    (h1 : e1 ∈ s.events) (h2 : e2 ∈ s.events) (ho1 : e1.end_time = none)
    (ho2 : e2.end_time = none) (hu : e1.user_id = e2.user_id) : e1 = e2 := by
  obtain ⟨q1, hq1, hqe1, hqu1⟩ := h.open_sess e1 h1 ho1
  obtain ⟨q2, hq2, hqe2, hqu2⟩ := h.open_sess e2 h2 ho2
  have hqq : q1 = q2 := h.entry_unique hq1 hq2 (by rw [hqu1, hqu2, hu])
  exact nodup_map_inj h.events_id_nodup h1 h2 (by rw [← hqe1, ← hqe2, hqq])

/-- The invariant gives the target property: at most one open event row per
user. -/
theorem StoreInv.atMostOne {s : ServerState} (h : StoreInv s) : atMostOneOpenPerUser s := by
  intro uid
  cases hml : s.events.filter (fun e => e.user_id == uid && e.end_time.isNone) with
  | nil => simp
  | cons x t =>
    cases t with
    | nil => simp
    | cons y t2 =>
      exfalso
      have hx : x ∈ s.events.filter (fun e => e.user_id == uid && e.end_time.isNone) := by
        rw [hml]; exact List.mem_cons_self _ _
      have hy : y ∈ s.events.filter (fun e => e.user_id == uid && e.end_time.isNone) := by
        rw [hml]; exact List.mem_cons_of_mem _ (List.mem_cons_self _ _)
      have hxe := List.mem_filter.mp hx
      have hye := List.mem_filter.mp hy
      have hxp := hxe.2
      have hyp := hye.2
      simp only [Bool.and_eq_true, beq_iff_eq, Option.isNone_iff_eq_none] at hxp hyp
      have hxy : x = y :=
        h.open_unique hxe.1 hye.1 hxp.2 hyp.2 (by rw [hxp.1, hyp.1])
      have hnd : ((s.events.filter
          (fun e => e.user_id == uid && e.end_time.isNone)).map (fun e => e.id)).Nodup :=
        List.Nodup.sublist (List.Sublist.map _ (List.filter_sublist _)) h.events_id_nodup
      rw [hml] at hnd
      simp only [List.map_cons, List.nodup_cons, List.mem_cons, List.mem_map] at hnd
      exact hnd.1 (Or.inl (by rw [hxy]))

/-- The empty store satisfies the invariant. -/
theorem storeInv_init : StoreInv initState := by
  refine ⟨?_, ?_, ?_, ?_, ?_, ?_, ?_, ?_, ?_⟩ <;> simp [initState]

/-- Mapping user rows with an id- and pubkey-preserving function keeps the
invariant (UPDATE statements on users never touch id or peer_pubkey). -/
theorem StoreInv.usersMap {s : ServerState} (h : StoreInv s) (f : UserRow → UserRow)
    (hid : ∀ u, (f u).id = u.id) (hpk : ∀ u, (f u).peer_pubkey = u.peer_pubkey) :
    StoreInv { s with users := s.users.map f } := by
  have hmapid : (s.users.map f).map (fun u => u.id) = s.users.map (fun u => u.id) := by
    rw [List.map_map]
    exact List.map_congr_left (fun a _ => hid a)
  have hmappk : (s.users.map f).map (fun u => u.peer_pubkey) =
      s.users.map (fun u => u.peer_pubkey) := by
    rw [List.map_map]
    exact List.map_congr_left (fun a _ => hpk a)
  refine ⟨?_, ?_, ?_, h.events_id_nodup, h.events_id_lt, h.sess_key_nodup, ?_,
    h.sess_event, h.open_sess⟩
  · rw [hmapid]; exact h.users_id_nodup
  · rw [hmappk]; exact h.users_pk_nodup
  · intro v hv
    rcases List.mem_map.mp hv with ⟨u, hu, rfl⟩
    rw [hid u]
    exact h.users_id_lt u hu
  · intro q hq
    obtain ⟨u, hu, hid', hpk'⟩ := h.sess_user q hq
    exact ⟨f u, List.mem_map_of_mem f hu, by rw [hid u, hid'], by rw [hpk u, hpk']⟩

/-- Mapping event rows with a function preserving id, user_id and end_time
keeps the invariant (the engine's UPDATE of an open event row). -/
theorem StoreInv.eventsMap {s : ServerState} (h : StoreInv s) (f : EventRow → EventRow)
    (hid : ∀ e, (f e).id = e.id) (huid : ∀ e, (f e).user_id = e.user_id)
    (hend : ∀ e, (f e).end_time = e.end_time) :
    StoreInv { s with events := s.events.map f } := by
  have hmapid : (s.events.map f).map (fun e => e.id) = s.events.map (fun e => e.id) := by
    rw [List.map_map]
    exact List.map_congr_left (fun a _ => hid a)
  refine ⟨h.users_id_nodup, h.users_pk_nodup, h.users_id_lt, ?_, ?_, h.sess_key_nodup,
    h.sess_user, ?_, ?_⟩
  · rw [hmapid]; exact h.events_id_nodup
  · intro v hv
    rcases List.mem_map.mp hv with ⟨e, he, rfl⟩
    rw [hid e]
    exact h.events_id_lt e he
  · intro q hq
    obtain ⟨e, he, h1, h2, h3⟩ := h.sess_event q hq
    exact ⟨f e, List.mem_map_of_mem f he, by rw [hid e, h1], by rw [huid e, h2],
      by rw [hend e, h3]⟩
  · intro v hv hvopen
    rcases List.mem_map.mp hv with ⟨e, he, rfl⟩
    rw [hend e] at hvopen
    obtain ⟨q, hq, h1, h2⟩ := h.open_sess e he hvopen
    exact ⟨q, hq, by rw [hid e, h1], by rw [huid e, h2]⟩

/-- Changes to the traffic table, the system_stats table or the adapter log
do not affect the invariant. -/
theorem StoreInv.ghost {s : ServerState} (h : StoreInv s) (tr : List TrafficRow)
    (sys : List SysRow) (lg : List WgCall) :
    StoreInv { s with traffic := tr, system_stats := sys, wgLog := lg } :=
  ⟨h.users_id_nodup, h.users_pk_nodup, h.users_id_lt, h.events_id_nodup, h.events_id_lt,
   h.sess_key_nodup, h.sess_user, h.sess_event, h.open_sess⟩

/-- Core of every close path: closing the event of the live-map entry for
key `pk` (setting its end_time) while removing that entry preserves the
invariant. -/
theorem StoreInv.closeEventRemoveKey {s : ServerState} (h : StoreInv s) (pk : String)
    (q : String × SessionEntry) (hq : lookupSession s pk = some q) (clk : Clock)
    (rx tx : Int) :
    StoreInv { s with
      events := s.events.map (fun e =>
        if e.id == q.2.event_id then closeRow clk rx tx e else e),
      sessions := s.sessions.filter (fun r => !(r.1 == pk)) } := by
  have hqmem : q ∈ s.sessions := List.mem_of_find?_eq_some hq
  have hqkey : q.1 = pk := by
    have := List.find?_some hq
    simpa using this
  have hfid : ∀ e : EventRow,
      (if e.id == q.2.event_id then closeRow clk rx tx e else e).id = e.id := by
    intro e; split <;> rfl
  have hfuid : ∀ e : EventRow,
      (if e.id == q.2.event_id then closeRow clk rx tx e else e).user_id = e.user_id := by
    intro e; split <;> rfl
  have hmapid : (s.events.map (fun e =>
      if e.id == q.2.event_id then closeRow clk rx tx e else e)).map (fun e => e.id) =
      s.events.map (fun e => e.id) := by
    rw [List.map_map]
    exact List.map_congr_left (fun a _ => hfid a)
  refine ⟨h.users_id_nodup, h.users_pk_nodup, h.users_id_lt, ?_, ?_, ?_, ?_, ?_, ?_⟩
  · rw [hmapid]; exact h.events_id_nodup
  · intro v hv
    rcases List.mem_map.mp hv with ⟨e, he, rfl⟩
    rw [hfid e]
    exact h.events_id_lt e he
  · exact List.Nodup.sublist (List.Sublist.map _ (List.filter_sublist _)) h.sess_key_nodup
  · intro r hr
    exact h.sess_user r (List.mem_filter.mp hr).1
  · intro r hr
    have hrmem : r ∈ s.sessions := (List.mem_filter.mp hr).1
    have hrkey : r.1 ≠ pk := by
      have := (List.mem_filter.mp hr).2
      simpa using this
    obtain ⟨e, he, h1, h2, h3⟩ := h.sess_event r hrmem
    have hne : e.id ≠ q.2.event_id := by
      intro hc
      obtain ⟨e0, he0, g1, g2, g3⟩ := h.sess_event q hqmem
      have hee : e = e0 := nodup_map_inj h.events_id_nodup he he0 (by rw [hc, g1])
      have hru : r.2.user_id = q.2.user_id := by
        rw [← h2, hee, g2]
      have := h.entry_unique hrmem hqmem hru
      rw [this, hqkey] at hrkey
      exact hrkey rfl
    have hee : (if e.id == q.2.event_id then closeRow clk rx tx e else e) = e := by
      rw [if_neg (by simpa using hne)]
    exact ⟨e, hee ▸ List.mem_map_of_mem
      (fun e => if e.id == q.2.event_id then closeRow clk rx tx e else e) he, h1, h2, h3⟩
  · intro v hv hvopen
    rcases List.mem_map.mp hv with ⟨e, he, rfl⟩
    by_cases hc : (e.id == q.2.event_id) = true
    · rw [if_pos hc] at hvopen ⊢
      cases hvopen
    · rw [if_neg (by simpa using hc)] at hvopen ⊢
      obtain ⟨r, hr, h1, h2⟩ := h.open_sess e he hvopen
      have hrkey : r.1 ≠ pk := by
        intro hk
        have hrq : r = q := nodup_map_inj h.sess_key_nodup hr hqmem (by rw [hk, hqkey])
        rw [hrq] at h1
        simp only [beq_iff_eq] at hc
        exact hc (by rw [← h1])
      exact ⟨r, List.mem_filter.mpr ⟨hr, by simpa using hrkey⟩, h1, h2⟩

/-- handle_peer_offline preserves the invariant. -/
theorem StoreInv.offline {s : ServerState} (h : StoreInv s) (pk : String) (clk : Clock) :
    StoreInv (handle_peer_offline pk clk s) := by
  cases hq : lookupSession s pk with
  | none =>
    unfold handle_peer_offline
    rw [hq]
    exact h
  | some q =>
    have hqmem : q ∈ s.sessions := List.mem_of_find?_eq_some hq
    obtain ⟨e0, he0, g1, g2, g3⟩ := h.sess_event q hqmem
    have hsome : (findEvent? s q.2.event_id).isSome = true :=
      List.find?_isSome.mpr ⟨e0, he0, by simp [g1]⟩
    obtain ⟨ev, hev⟩ := Option.isSome_iff_exists.mp hsome
    have hr : handle_peer_offline pk clk s =
        { s with
          users := (s.users.map (fun u => if u.id == ev.user_id then
              { u with total_rx := u.total_rx + ev.session_rx,
                       total_tx := u.total_tx + ev.session_tx,
                       last_login := some clk.unix, updated_at := clk.unix } else u)).map
            (fun u => if u.id == q.2.user_id then
              { u with status := 0, updated_at := clk.unix } else u),
          traffic := (close_session q.2.event_id none none clk s).traffic,
          events := s.events.map (fun e => if e.id == q.2.event_id then
            closeRow clk ev.session_rx ev.session_tx e else e),
          sessions := s.sessions.filter (fun r => !(r.1 == pk)) } := by
      simp only [handle_peer_offline, hq, close_session, hev, pyOr,
        update_user_traffic_stats, update_daily_traffic_stats, update_user_status]
    rw [hr]
    have h1 := h.usersMap (fun u => if u.id == ev.user_id then
        { u with total_rx := u.total_rx + ev.session_rx,
                 total_tx := u.total_tx + ev.session_tx,
                 last_login := some clk.unix, updated_at := clk.unix } else u)
      (fun u => by dsimp only; split <;> rfl) (fun u => by dsimp only; split <;> rfl)
    have h2 := h1.usersMap (fun u => if u.id == q.2.user_id then
        { u with status := 0, updated_at := clk.unix } else u)
      (fun u => by dsimp only; split <;> rfl) (fun u => by dsimp only; split <;> rfl)
    have h3 := h2.ghost (close_session q.2.event_id none none clk s).traffic
      s.system_stats s.wgLog
    exact h3.closeEventRemoveKey pk q hq clk ev.session_rx ev.session_tx

/-- Effect of a successful get_or_create_user: the invariant is preserved,
events/sessions/nextEventId are untouched, the returned user id belongs to a
user row carrying the looked-up pubkey, and every prior user row survives
with its id and pubkey. -/
theorem gocu_ok_effect {clk : Clock} {pk : String} {s s' : ServerState} {uid : Nat}
    {nick : String} {en : Nat} (h : StoreInv s)
    (hg : get_or_create_user clk pk s = Except.ok (s', uid, nick, en)) :
    StoreInv s' ∧ s'.events = s.events ∧ s'.sessions = s.sessions ∧
      s'.nextEventId = s.nextEventId ∧
      (∃ u ∈ s'.users, u.id = uid ∧ u.peer_pubkey = pk) ∧
      (∀ x ∈ s.users, ∃ y ∈ s'.users, y.id = x.id ∧ y.peer_pubkey = x.peer_pubkey) := by
  unfold get_or_create_user at hg
  cases hval : validate_pubkey pk with
  | false =>
    rw [hval] at hg
    simp only [Bool.not_false, if_true] at hg
    cases hg
  | true =>
  rw [hval] at hg
  simp only [Bool.not_true, Bool.false_eq_true, if_false] at hg
  cases hfu : findUserByPk? s pk with
  | some u =>
    rw [hfu] at hg
    dsimp only at hg
    have humem : u ∈ s.users := List.mem_of_find?_eq_some hfu
    have hupk : u.peer_pubkey = pk := by
      have := List.find?_some hfu
      simpa using this
    have hdisabled : ∀ (hs' : s' = { s with users := s.users.map (fun v =>
          if v.id == u.id then { v with enabled := 0, updated_at := clk.unix } else v) })
        (huid : uid = u.id),
        StoreInv s' ∧ s'.events = s.events ∧ s'.sessions = s.sessions ∧
          s'.nextEventId = s.nextEventId ∧
          (∃ w ∈ s'.users, w.id = uid ∧ w.peer_pubkey = pk) ∧
          (∀ x ∈ s.users, ∃ y ∈ s'.users, y.id = x.id ∧ y.peer_pubkey = x.peer_pubkey) := by
      intro hs' huid
      subst hs' huid
      have hmap := h.usersMap (fun v =>
          if v.id == u.id then { v with enabled := 0, updated_at := clk.unix } else v)
        (fun v => by dsimp only; split <;> rfl) (fun v => by dsimp only; split <;> rfl)
      refine ⟨hmap, rfl, rfl, rfl, ?_, ?_⟩
      · refine ⟨(fun v => if v.id == u.id then
            { v with enabled := 0, updated_at := clk.unix } else v) u,
          List.mem_map_of_mem _ humem, ?_, ?_⟩
        · dsimp only; split <;> rfl
        · dsimp only
          rw [show ((if u.id == u.id then
              { u with enabled := 0, updated_at := clk.unix } else u)).peer_pubkey =
            u.peer_pubkey from by split <;> rfl]
          exact hupk
      · intro x hx
        refine ⟨(fun v => if v.id == u.id then
            { v with enabled := 0, updated_at := clk.unix } else v) x,
          List.mem_map_of_mem _ hx, by dsimp only; split <;> rfl,
          by dsimp only; split <;> rfl⟩
    have hsame : ∀ (hs' : s' = s) (huid : uid = u.id),
        StoreInv s' ∧ s'.events = s.events ∧ s'.sessions = s.sessions ∧
          s'.nextEventId = s.nextEventId ∧
          (∃ w ∈ s'.users, w.id = uid ∧ w.peer_pubkey = pk) ∧
          (∀ x ∈ s.users, ∃ y ∈ s'.users, y.id = x.id ∧ y.peer_pubkey = x.peer_pubkey) := by
      intro hs' huid
      subst hs' huid
      exact ⟨h, rfl, rfl, rfl, ⟨u, humem, rfl, hupk⟩,
        fun x hx => ⟨x, hx, rfl, rfl⟩⟩
    cases hexp : u.expiry_date with
    | none =>
      rw [hexp] at hg
      simp only [Except.ok.injEq, Prod.mk.injEq] at hg
      exact hsame hg.1.symm hg.2.1.symm
    | some ed =>
      rw [hexp] at hg
      dsimp only at hg
      cases hpe : strptime19 ed with
      | none =>
        rw [hpe] at hg
        dsimp only at hg
        simp only [Except.ok.injEq, Prod.mk.injEq] at hg
        exact hsame hg.1.symm hg.2.1.symm
      | some expiry =>
        rw [hpe] at hg
        dsimp only at hg
        by_cases hlt : PyDateTime.ltb expiry clk.wall = true
        · rw [if_pos hlt] at hg
          simp only [Except.ok.injEq, Prod.mk.injEq] at hg
          exact hdisabled hg.1.symm hg.2.1.symm
        · rw [if_neg hlt] at hg
          simp only [Except.ok.injEq, Prod.mk.injEq] at hg
          exact hsame hg.1.symm hg.2.1.symm
  | none =>
    rw [hfu] at hg
    dsimp only at hg
    simp only [Except.ok.injEq, Prod.mk.injEq] at hg
    obtain ⟨hs', huid, hnick, hen⟩ := hg
    subst hs' huid
    have hpkfresh : ∀ x ∈ s.users, x.peer_pubkey ≠ pk := by
      intro x hx hc
      have := List.find?_eq_none.mp hfu x hx
      simp [hc] at this
    refine ⟨?_, rfl, rfl, rfl, ?_, ?_⟩
    · refine ⟨?_, ?_, ?_, h.events_id_nodup, h.events_id_lt, h.sess_key_nodup, ?_,
        h.sess_event, h.open_sess⟩
      · rw [List.map_append, List.nodup_append]
        refine ⟨h.users_id_nodup, by simp, ?_⟩
        intro a ha hb
        simp only [List.map_cons, List.map_nil, List.mem_cons, List.not_mem_nil,
          or_false] at hb
        rcases List.mem_map.mp ha with ⟨x, hx, rfl⟩
        have := h.users_id_lt x hx
        omega
      · rw [List.map_append, List.nodup_append]
        refine ⟨h.users_pk_nodup, by simp, ?_⟩
        intro a ha hb
        simp only [List.map_cons, List.map_nil, List.mem_cons, List.not_mem_nil,
          or_false] at hb
        rcases List.mem_map.mp ha with ⟨x, hx, rfl⟩
        exact hpkfresh x hx hb
      · intro v hv
        rcases List.mem_append.mp hv with hv | hv
        · have := h.users_id_lt v hv
          simp only []
          omega
        · simp only [List.mem_singleton] at hv
          subst hv
          simp
      · intro q hq
        obtain ⟨w, hw, h1, h2⟩ := h.sess_user q hq
        exact ⟨w, List.mem_append_left _ hw, h1, h2⟩
    · exact ⟨_, List.mem_append_right _ (List.mem_singleton_self _), rfl, rfl⟩
    · intro x hx
      exact ⟨x, List.mem_append_left _ hx, rfl, rfl⟩

/-- Replacing the live-map entry at an existing key in place, keeping its
event_id and user_id, preserves the invariant (the OPEN to OPEN update). -/
theorem StoreInv.sessionsUpd {s : ServerState} (h : StoreInv s) (pk : String)
    (q : String × SessionEntry) (hq : lookupSession s pk = some q) (ent' : SessionEntry)
    (heid : ent'.event_id = q.2.event_id) (huid : ent'.user_id = q.2.user_id) :
    StoreInv { s with
      sessions := s.sessions.map (fun r => if r.1 == pk then (pk, ent') else r) } := by
  have hqmem : q ∈ s.sessions := List.mem_of_find?_eq_some hq
  have hqkey : q.1 = pk := by
    have := List.find?_some hq
    simpa using this
  have hkeys : (s.sessions.map (fun r => if r.1 == pk then (pk, ent') else r)).map
      (fun r => r.1) = s.sessions.map (fun r => r.1) := by
    rw [List.map_map]
    refine List.map_congr_left ?_
    intro r _
    by_cases hc : (r.1 == pk) = true
    · have hk : r.1 = pk := by simpa using hc
      simp [Function.comp, hc, hk]
    · simp [Function.comp, hc]
  have hsame : ∀ r ∈ s.sessions, (r.1 == pk) = true → r = q := by
    intro r hr hc
    exact nodup_map_inj h.sess_key_nodup hr hqmem (by rw [hqkey]; simpa using hc)
  refine ⟨h.users_id_nodup, h.users_pk_nodup, h.users_id_lt, h.events_id_nodup,
    h.events_id_lt, ?_, ?_, ?_, ?_⟩
  · rw [hkeys]; exact h.sess_key_nodup
  · intro r' hr'
    rcases List.mem_map.mp hr' with ⟨r, hr, rfl⟩
    dsimp only
    by_cases hc : (r.1 == pk) = true
    · rw [if_pos hc]
      obtain ⟨w, hw, h1, h2⟩ := h.sess_user q hqmem
      exact ⟨w, hw, by rw [h1, huid], by rw [h2, hqkey]⟩
    · rw [if_neg hc]
      exact h.sess_user r hr
  · intro r' hr'
    rcases List.mem_map.mp hr' with ⟨r, hr, rfl⟩
    dsimp only
    by_cases hc : (r.1 == pk) = true
    · rw [if_pos hc]
      obtain ⟨e, he, h1, h2, h3⟩ := h.sess_event q hqmem
      exact ⟨e, he, by rw [h1, heid], by rw [h2, huid], h3⟩
    · rw [if_neg hc]
      exact h.sess_event r hr
  · intro e he hopen
    obtain ⟨r, hr, h1, h2⟩ := h.open_sess e he hopen
    by_cases hc : (r.1 == pk) = true
    · have hrq := hsame r hr hc
      refine ⟨(pk, ent'), ?_, ?_, ?_⟩
      · exact List.mem_map.mpr ⟨r, hr, by rw [if_pos hc]⟩
      · rw [show (pk, ent').2 = ent' from rfl, heid, ← hrq, h1]
      · rw [show (pk, ent').2 = ent' from rfl, huid, ← hrq, h2]
    · refine ⟨r, ?_, h1, h2⟩
      exact List.mem_map.mpr ⟨r, hr, by rw [if_neg hc]⟩

/-- Opening a session for a pubkey with no live-map entry — appending a
fresh open event row (at the next event id) together with its live-map
entry — preserves the invariant. -/
theorem StoreInv.openAppend {s : ServerState} (h : StoreInv s) (pk : String) (uid : Nat)
    (ent : SessionEntry) (row : EventRow)
    (hu : ∃ u ∈ s.users, u.id = uid ∧ u.peer_pubkey = pk)
    (hnos : lookupSession s pk = none)
    (hrid : row.id = s.nextEventId) (hruid : row.user_id = uid)
    (hropen : row.end_time = none)
    (heid : ent.event_id = s.nextEventId) (heuid : ent.user_id = uid) :
    StoreInv { s with
      events := s.events ++ [row],
      sessions := s.sessions ++ [(pk, ent)],
      nextEventId := s.nextEventId + 1 } := by
  have hkeyfresh : ∀ r ∈ s.sessions, r.1 ≠ pk := by
    intro r hr hc
    have := List.find?_eq_none.mp hnos r hr
    simp [hc] at this
  refine ⟨h.users_id_nodup, h.users_pk_nodup, h.users_id_lt, ?_, ?_, ?_, ?_, ?_, ?_⟩
  · rw [List.map_append, List.nodup_append]
    refine ⟨h.events_id_nodup, by simp, ?_⟩
    intro a ha hb
    simp only [List.map_cons, List.map_nil, List.mem_cons, List.not_mem_nil, or_false] at hb
    rcases List.mem_map.mp ha with ⟨e, he, rfl⟩
    have := h.events_id_lt e he
    rw [hb, hrid] at this
    omega
  · intro e he
    rcases List.mem_append.mp he with he | he
    · have := h.events_id_lt e he
      simp only []
      omega
    · simp only [List.mem_singleton] at he
      subst he
      simp [hrid]
  · rw [List.map_append, List.nodup_append]
    refine ⟨h.sess_key_nodup, by simp, ?_⟩
    intro a ha hb
    simp only [List.map_cons, List.map_nil, List.mem_cons, List.not_mem_nil, or_false] at hb
    rcases List.mem_map.mp ha with ⟨r, hr, rfl⟩
    exact hkeyfresh r hr hb
  · intro r hr
    rcases List.mem_append.mp hr with hr | hr
    · obtain ⟨w, hw, h1, h2⟩ := h.sess_user r hr
      exact ⟨w, hw, h1, h2⟩
    · simp only [List.mem_singleton] at hr
      subst hr
      obtain ⟨w, hw, h1, h2⟩ := hu
      exact ⟨w, hw, by rw [h1]; exact heuid.symm, h2⟩
  · intro r hr
    rcases List.mem_append.mp hr with hr | hr
    · obtain ⟨e, he, h1, h2, h3⟩ := h.sess_event r hr
      exact ⟨e, List.mem_append_left _ he, h1, h2, h3⟩
    · simp only [List.mem_singleton] at hr
      subst hr
      refine ⟨row, List.mem_append_right _ (List.mem_singleton_self _), ?_, ?_, hropen⟩
      · rw [hrid]
        exact heid.symm
      · rw [hruid]
        exact heuid.symm
  · intro e he hopen
    rcases List.mem_append.mp he with he | he
    · obtain ⟨r, hr, h1, h2⟩ := h.open_sess e he hopen
      exact ⟨r, List.mem_append_left _ hr, h1, h2⟩
    · simp only [List.mem_singleton] at he
      subst he
      refine ⟨(pk, ent), List.mem_append_right _ (List.mem_singleton_self _), ?_, ?_⟩
      · rw [show (pk, ent).2 = ent from rfl, heid, hrid]
      · rw [show (pk, ent).2 = ent from rfl, heuid, hruid]

theorem sessionDelta_event_id (ent : SessionEntry) (rx tx : Int) :
    (sessionDelta ent rx tx).1.event_id = ent.event_id := by
  unfold sessionDelta
  split <;> rfl

theorem sessionDelta_user_id (ent : SessionEntry) (rx tx : Int) :
    (sessionDelta ent rx tx).1.user_id = ent.user_id := by
  unfold sessionDelta
  split <;> rfl

/-- handle_peer_online preserves the invariant. -/
theorem StoreInv.online {s : ServerState} (h : StoreInv s) (clk : Clock) (pk : String)
    (peer : PeerInfo) : StoreInv (handle_peer_online clk pk peer s) := by
  cases hg : get_or_create_user clk pk s with
  | error e =>
    unfold handle_peer_online
    rw [hg]
    exact h
  | ok t =>
    obtain ⟨s', uid, nick, en⟩ := t
    obtain ⟨hI, hev, hse, hne, hexu, hpres⟩ := gocu_ok_effect h hg
    by_cases hen : (en == 0) = true
    · have hr : handle_peer_online clk pk peer s = update_user_status uid 0 clk s' := by
        unfold handle_peer_online
        rw [hg]
        dsimp only
        rw [if_pos hen]
      rw [hr]
      unfold update_user_status
      exact hI.usersMap _ (fun u => by split <;> rfl)
        (fun u => by split <;> rfl)
    · cases hq : lookupSession s' pk with
      | some q =>
        have hr : handle_peer_online clk pk peer s =
            { s' with
              events := s'.events.map (fun e => if e.id == q.2.event_id then
                { e with last_update := clk.unix,
                         session_rx := (sessionDelta q.2 peer.rx peer.tx).2.1,
                         session_tx := (sessionDelta q.2 peer.rx peer.tx).2.2 } else e),
              sessions := s'.sessions.map (fun r => if r.1 == pk then
                (pk, { (sessionDelta q.2 peer.rx peer.tx).1 with
                       last_handshake := peer.handshake }) else r) } := by
          simp only [handle_peer_online, hg, hen, Bool.false_eq_true, if_neg,
            not_false_iff, hq, update_session_traffic]
        rw [hr]
        have h2 := hI.eventsMap (fun e => if e.id == q.2.event_id then
            { e with last_update := clk.unix,
                     session_rx := (sessionDelta q.2 peer.rx peer.tx).2.1,
                     session_tx := (sessionDelta q.2 peer.rx peer.tx).2.2 } else e)
          (fun e => by dsimp only; split <;> rfl) (fun e => by dsimp only; split <;> rfl)
          (fun e => by dsimp only; split <;> rfl)
        exact h2.sessionsUpd pk q hq
          ({ (sessionDelta q.2 peer.rx peer.tx).1 with last_handshake := peer.handshake })
          (sessionDelta_event_id q.2 peer.rx peer.tx)
          (sessionDelta_user_id q.2 peer.rx peer.tx)
      | none =>
        have hr : handle_peer_online clk pk peer s =
            update_user_status uid 1 clk
              { s' with
                events := s'.events ++
                  [{ id := s'.nextEventId, user_id := uid, start_time := clk.unix,
                     start_date := clk.today, end_time := none, last_update := clk.unix,
                     session_rx := 0, session_tx := 0, login_ip := none,
                     endpoint_info := peer.endpoint, status := "ONLINE",
                     duration_seconds := 0 }],
                sessions := s'.sessions ++
                  [(pk, ⟨s'.nextEventId, peer.rx, peer.tx, peer.handshake, uid, nick⟩)],
                nextEventId := s'.nextEventId + 1 } := by
          simp only [handle_peer_online, hg, hen, Bool.false_eq_true, if_neg,
            not_false_iff, hq, create_new_session]
        rw [hr]
        unfold update_user_status
        exact (hI.openAppend pk uid
            ⟨s'.nextEventId, peer.rx, peer.tx, peer.handshake, uid, nick⟩
            ({ id := s'.nextEventId, user_id := uid, start_time := clk.unix,
               start_date := clk.today, end_time := none, last_update := clk.unix,
               session_rx := 0, session_tx := 0, login_ip := none,
               endpoint_info := peer.endpoint, status := "ONLINE",
               duration_seconds := 0 })
            hexu hq rfl rfl rfl rfl rfl).usersMap _
          (fun u => by split <;> rfl) (fun u => by split <;> rfl)

theorem foldl_storeInv {β : Type} (f : ServerState → β → ServerState)
    (hf : ∀ st x, StoreInv st → StoreInv (f st x)) :
    ∀ (l : List β) (s : ServerState), StoreInv s → StoreInv (l.foldl f s)
  | [], _, h => h
  | x :: t, s, h => foldl_storeInv f hf t (f s x) (hf s x h)

/-- One monitor tick preserves the invariant. -/
theorem StoreInv.tick {s : ServerState} (h : StoreInv s) (clk : Clock)
    (snapshot : List (String × PeerInfo)) (maxAge : Option Int) (lastStats : Int) :
    StoreInv (monitor_wireguard clk snapshot maxAge lastStats s).1 := by
  have hbody : StoreInv (monitor_body clk snapshot maxAge s) := by
    unfold monitor_body
    apply foldl_storeInv (fun st pk => handle_peer_offline pk clk st)
      (fun st pk hst => hst.offline pk clk)
    apply foldl_storeInv
    · intro st pq hst
      by_cases hon : is_peer_online clk.unix pq.2.handshake maxAge = true
      · rw [if_pos hon]
        exact hst.online clk pq.1 pq.2
      · rw [if_neg hon]
        by_cases hmem : (lookupSession st pq.1).isSome = true
        · rw [if_pos hmem]
          exact hst.offline pq.1 clk
        · rw [if_neg hmem]
          exact hst
    · exact h
  unfold monitor_wireguard
  by_cases hdue : clk.unix - lastStats > 300
  · rw [if_pos hdue]
    exact hbody.ghost _ _ _
  · rw [if_neg hdue]
    exact hbody

/-- Appending a user row with a fresh id and a pubkey not yet in the table
preserves the invariant (the INSERT of create_user). -/
theorem StoreInv.userAppend {s : ServerState} (h : StoreInv s) (row : UserRow)
    (hid : row.id = s.nextUserId)
    (hpk : ∀ x ∈ s.users, x.peer_pubkey ≠ row.peer_pubkey) :
    StoreInv { s with users := s.users ++ [row], nextUserId := s.nextUserId + 1 } := by
  refine ⟨?_, ?_, ?_, h.events_id_nodup, h.events_id_lt, h.sess_key_nodup, ?_,
    h.sess_event, h.open_sess⟩
  · rw [List.map_append, List.nodup_append]
    refine ⟨h.users_id_nodup, by simp, ?_⟩
    intro a ha hb
    simp only [List.map_cons, List.map_nil, List.mem_cons, List.not_mem_nil, or_false] at hb
    rcases List.mem_map.mp ha with ⟨x, hx, rfl⟩
    have := h.users_id_lt x hx
    rw [hb, hid] at this
    omega
  · rw [List.map_append, List.nodup_append]
    refine ⟨h.users_pk_nodup, by simp, ?_⟩
    intro a ha hb
    simp only [List.map_cons, List.map_nil, List.mem_cons, List.not_mem_nil, or_false] at hb
    rcases List.mem_map.mp ha with ⟨x, hx, rfl⟩
    exact hpk x hx hb
  · intro v hv
    rcases List.mem_append.mp hv with hv | hv
    · have := h.users_id_lt v hv
      simp only []
      omega
    · simp only [List.mem_singleton] at hv
      subst hv
      simp [hid]
  · intro q hq
    obtain ⟨w, hw, h1, h2⟩ := h.sess_user q hq
    exact ⟨w, List.mem_append_left _ hw, h1, h2⟩

/-- create_user preserves the invariant in every outcome. -/
theorem StoreInv.createUser {s : ServerState} (h : StoreInv s) (clk : Clock) (pk : String)
    (nickname mail phone : Option String) (bw dl : Int) (expiry note : Option String) :
    StoreInv (create_user clk pk nickname mail phone bw dl expiry note s).1 := by
  unfold create_user
  cases hvb : validate_pubkey pk with
  | false =>
    simp only [hvb, Bool.not_false, if_true]
    exact h
  | true =>
    simp only [hvb, Bool.not_true, Bool.false_eq_true, if_false]
    by_cases hmail : (match mail with
        | some m => m != "" && !(validate_email m)
        | none => false) = true
    · rw [if_pos hmail]
      exact h
    · rw [if_neg hmail]
      cases hdup : (findUserByPk? s pk).isSome with
      | true =>
        simp only [hdup, if_true]
        exact h
      | false =>
        simp only [hdup, Bool.false_eq_true, if_false]
        cases hip : get_next_available_ip (s.users.filterMap (fun u => u.client_ip)) with
        | error e =>
          exact h
        | ok ip =>
          dsimp only
          have hfresh : ∀ x ∈ s.users, x.peer_pubkey ≠ pk := by
            intro x hx hc
            have hnone : findUserByPk? s pk = none :=
              Option.not_isSome_iff_eq_none.mp (by simp [hdup])
            have := List.find?_eq_none.mp hnone x hx
            simp [hc] at this
          exact (h.ghost s.traffic s.system_stats
              (s.wgLog ++ [WgCall.add pk ip])).userAppend _ rfl hfresh

/-- update_user preserves the invariant in every outcome. -/
theorem StoreInv.updateUser {s : ServerState} (h : StoreInv s) (uid : Nat) (k : UserUpd)
    (clk : Clock) : StoreInv (update_user uid k clk s).1 := by
  unfold update_user
  by_cases hempty : k.isEmpty = true
  · rw [if_pos hempty]
    exact h
  · rw [if_neg hempty]
    by_cases hmail : (match k.mail with
        | some (some m) => m != "" && !(validate_email m)
        | _ => false) = true
    · rw [if_pos hmail]
      exact h
    · rw [if_neg hmail]
      dsimp only
      have hs1 : StoreInv (if k.enabled == some 0 then
          match findUser? s uid with
          | some u => (remove_wg_peer u.peer_pubkey s).1
          | none => s
        else if k.enabled == some 1 then
          match findUser? s uid with
          | some u =>
            match u.client_ip with
            | some ip => (add_wg_peer u.peer_pubkey ip s).1
            | none => s
          | none => s
        else s) := by
        by_cases h0 : (k.enabled == some 0) = true
        · rw [if_pos h0]
          cases findUser? s uid with
          | some u =>
            show StoreInv (remove_wg_peer u.peer_pubkey s).1
            exact h.ghost _ _ _
          | none => exact h
        · rw [if_neg h0]
          by_cases h1 : (k.enabled == some 1) = true
          · rw [if_pos h1]
            cases findUser? s uid with
            | some u =>
              show StoreInv (match u.client_ip with
                | some ip => (add_wg_peer u.peer_pubkey ip s).1
                | none => s)
              cases u.client_ip with
              | some ip =>
                show StoreInv (add_wg_peer u.peer_pubkey ip s).1
                exact h.ghost _ _ _
              | none => exact h
            | none => exact h
          · rw [if_neg h1]
            exact h
      exact hs1.usersMap _ (fun u => by split <;> rfl)
        (fun u => by split <;> rfl)

/-- The traffic-reset action preserves the invariant. -/
theorem StoreInv.resetUser {s : ServerState} (h : StoreInv s) (uid : Nat) (clk : Clock) :
    StoreInv (reset_user_traffic uid clk s) := by
  unfold reset_user_traffic
  exact h.usersMap _ (fun u => by split <;> rfl)
    (fun u => by split <;> rfl)

/-- The kick action preserves the invariant. -/
theorem StoreInv.kickUser {s : ServerState} (h : StoreInv s) (uid : Nat) (clk : Clock) :
    StoreInv (kick_user uid clk s) := by
  unfold kick_user
  cases s.sessions.find? (fun q => q.2.user_id == uid) with
  | some q => exact h.offline q.1 clk
  | none => exact h

/-- Over a list with distinct keys whose matches are value-unique, removing
the first match (dict `del`) is the same as filtering out all matches. -/
theorem sessions_eraseP_eq_filter (p : String × SessionEntry → Bool) :
    ∀ (l : List (String × SessionEntry)), (l.map (fun r => r.1)).Nodup →
      (∀ x ∈ l, ∀ y ∈ l, p x = true → p y = true → x = y) →
      l.eraseP p = l.filter (fun r => !(p r)) := by
  intro l
  induction l with
  | nil => intro _ _; rfl
  | cons a t ih =>
    intro hnd huniq
    simp only [List.map_cons, List.nodup_cons] at hnd
    by_cases hpa : p a = true
    · rw [List.eraseP_cons_of_pos hpa]
      have hnone : ∀ x ∈ t, p x = false := by
        intro x hx
        by_contra hc
        have hpx : p x = true := by simpa using hc
        have hxa : x = a := huniq x (List.mem_cons_of_mem _ hx) a
          (List.mem_cons_self _ _) hpx hpa
        exact hnd.1 (List.mem_map_of_mem (fun r => r.1) (hxa ▸ hx))
      rw [List.filter_cons_of_neg (by simp [hpa])]
      rw [List.filter_eq_self.mpr (fun x hx => by simp [hnone x hx])]
    · rw [List.eraseP_cons_of_neg hpa, List.filter_cons_of_pos (by simpa using hpa)]
      rw [ih hnd.2 (fun x hx y hy => huniq x (List.mem_cons_of_mem _ hx) y
        (List.mem_cons_of_mem _ hy))]

/-- Deleting the user row of a user with no remaining live-map entry
preserves the invariant. -/
theorem StoreInv.usersFilterNoSess {s : ServerState} (h : StoreInv s) (uid : Nat)
    (hpres : ∀ q ∈ s.sessions, q.2.user_id ≠ uid) :
    StoreInv { s with users := s.users.filter (fun v => !(v.id == uid)) } := by
  refine ⟨?_, ?_, ?_, h.events_id_nodup, h.events_id_lt, h.sess_key_nodup, ?_,
    h.sess_event, h.open_sess⟩
  · exact List.Nodup.sublist (List.Sublist.map _ (List.filter_sublist _)) h.users_id_nodup
  · exact List.Nodup.sublist (List.Sublist.map _ (List.filter_sublist _)) h.users_pk_nodup
  · intro v hv
    exact h.users_id_lt v (List.mem_filter.mp hv).1
  · intro q hq
    obtain ⟨w, hw, h1, h2⟩ := h.sess_user q hq
    refine ⟨w, List.mem_filter.mpr ⟨hw, ?_⟩, h1, h2⟩
    have : w.id ≠ uid := by
      rw [h1]
      exact hpres q hq
    simpa using this

/-- Closing the unique open event of user `uid` (via its live-map entry)
while filtering out that user's live-map entries preserves the invariant. -/
theorem StoreInv.closeEventRemoveUser {s : ServerState} (h : StoreInv s) (uid : Nat)
    (eid : Nat) (q : String × SessionEntry) (hq : q ∈ s.sessions)
    (hquid : q.2.user_id = uid) (hqev : q.2.event_id = eid) (clk : Clock) (rx tx : Int) :
    StoreInv { s with
      events := s.events.map (fun e => if e.id == eid then closeRow clk rx tx e else e),
      sessions := s.sessions.filter (fun r => !(r.2.user_id == uid)) } := by
  obtain ⟨e0, he0, g1, g2, g3⟩ := h.sess_event q hq
  have hfid : ∀ e : EventRow, (if e.id == eid then closeRow clk rx tx e else e).id = e.id := by
    intro e; split <;> rfl
  have hmapid : (s.events.map (fun e =>
      if e.id == eid then closeRow clk rx tx e else e)).map (fun e => e.id) =
      s.events.map (fun e => e.id) := by
    rw [List.map_map]
    exact List.map_congr_left (fun a _ => hfid a)
  refine ⟨h.users_id_nodup, h.users_pk_nodup, h.users_id_lt, ?_, ?_, ?_, ?_, ?_, ?_⟩
  · rw [hmapid]; exact h.events_id_nodup
  · intro v hv
    rcases List.mem_map.mp hv with ⟨e, he, rfl⟩
    rw [hfid e]
    exact h.events_id_lt e he
  · exact List.Nodup.sublist (List.Sublist.map _ (List.filter_sublist _)) h.sess_key_nodup
  · intro r hr
    exact h.sess_user r (List.mem_filter.mp hr).1
  · intro r hr
    have hrmem : r ∈ s.sessions := (List.mem_filter.mp hr).1
    have hruid : r.2.user_id ≠ uid := by
      have := (List.mem_filter.mp hr).2
      simpa using this
    obtain ⟨e, he, h1, h2, h3⟩ := h.sess_event r hrmem
    have hne : e.id ≠ eid := by
      intro hc
      have hee : e = e0 := nodup_map_inj h.events_id_nodup he he0 (by rw [hc, g1, hqev])
      have : r.2.user_id = uid := by rw [← h2, hee, g2, hquid]
      exact hruid this
    have hee : (if e.id == eid then closeRow clk rx tx e else e) = e := by
      rw [if_neg (by simpa using hne)]
    exact ⟨e, hee ▸ List.mem_map_of_mem
      (fun e => if e.id == eid then closeRow clk rx tx e else e) he, h1, h2, h3⟩
  · intro v hv hvopen
    rcases List.mem_map.mp hv with ⟨e, he, rfl⟩
    by_cases hc : (e.id == eid) = true
    · rw [if_pos hc] at hvopen ⊢
      cases hvopen
    · rw [if_neg (by simpa using hc)] at hvopen ⊢
      obtain ⟨r, hr, h1, h2⟩ := h.open_sess e he hvopen
      have hruid : r.2.user_id ≠ uid := by
        intro hk
        have : e.user_id = e0.user_id := by rw [← h2, hk, ← hquid, ← g2]
        have hee : e = e0 := h.open_unique he he0 hvopen g3 this
        simp only [beq_iff_eq] at hc
        exact hc (by rw [hee, g1, hqev])
      exact ⟨r, List.mem_filter.mpr ⟨hr, by simpa using hruid⟩, h1, h2⟩

/-- delete_user preserves the invariant. -/
theorem StoreInv.deleteUser {s : ServerState} (h : StoreInv s) (uid : Nat) (clk : Clock) :
    StoreInv (delete_user uid clk s).1 := by
  unfold delete_user
  cases hfu : findUser? s uid with
  | none => exact h
  | some u =>
    dsimp only
    have huniq : ∀ x ∈ s.sessions, ∀ y ∈ s.sessions,
        (x.2.user_id == uid) = true → (y.2.user_id == uid) = true → x = y := by
      intro x hx y hy hpx hpy
      exact h.entry_unique hx hy (by
        rw [show x.2.user_id = uid from by simpa using hpx,
            show y.2.user_id = uid from by simpa using hpy])
    have herase := sessions_eraseP_eq_filter (fun r => r.2.user_id == uid) s.sessions
      h.sess_key_nodup huniq
    have hcnt := h.atMostOne uid
    cases hml : s.events.filter (fun e => e.user_id == uid && e.end_time.isNone) with
    | nil =>
      simp only [List.map_nil, List.foldl_nil]
      have hnomatch : ∀ q ∈ s.sessions, q.2.user_id ≠ uid := by
        intro q hq hc
        obtain ⟨e, he, h1, h2, h3⟩ := h.sess_event q hq
        have : e ∈ s.events.filter (fun e => e.user_id == uid && e.end_time.isNone) :=
          List.mem_filter.mpr ⟨he, by simp [h2, hc, h3]⟩
        rw [hml] at this
        cases this
      have hsess2 : List.filter
          (fun r => !((fun r : String × SessionEntry => r.2.user_id == uid) r)) s.sessions =
          s.sessions :=
        List.filter_eq_self.mpr (fun q hq => by simpa using hnomatch q hq)
      rw [herase, hsess2]
      exact ((h.ghost s.traffic s.system_stats
        (s.wgLog ++ [WgCall.remove u.peer_pubkey])).usersFilterNoSess uid hnomatch)
    | cons e0 t =>
      have ht : t = [] := by
        rw [hml] at hcnt
        cases t with
        | nil => rfl
        | cons b t2 => simp at hcnt
      subst ht
      have he0f : e0 ∈ s.events.filter (fun e => e.user_id == uid && e.end_time.isNone) := by
        rw [hml]
        exact List.mem_cons_self _ _
      have he0 : e0 ∈ s.events := (List.mem_filter.mp he0f).1
      have he0p := (List.mem_filter.mp he0f).2
      simp only [Bool.and_eq_true, beq_iff_eq, Option.isNone_iff_eq_none] at he0p
      have hfind : findEvent? s e0.id = some e0 := by
        have hsome : (findEvent? s e0.id).isSome = true :=
          List.find?_isSome.mpr ⟨e0, he0, by simp⟩
        obtain ⟨ev, hev⟩ := Option.isSome_iff_exists.mp hsome
        have hevid : ev.id = e0.id := by
          have := List.find?_some hev
          simpa using this
        have : ev = e0 :=
          nodup_map_inj h.events_id_nodup (List.mem_of_find?_eq_some hev) he0 hevid
        rw [this] at hev
        exact hev
      obtain ⟨q, hq, hq1, hq2⟩ := h.open_sess e0 he0 he0p.2
      have hclose : close_session e0.id (some 0) (some 0) clk s =
          { s with
            users := s.users.map (fun v => if v.id == e0.user_id then
              { v with total_rx := v.total_rx + e0.session_rx,
                       total_tx := v.total_tx + e0.session_tx,
                       last_login := some clk.unix, updated_at := clk.unix } else v),
            traffic := (close_session e0.id (some 0) (some 0) clk s).traffic,
            events := s.events.map (fun e => if e.id == e0.id then
              closeRow clk e0.session_rx e0.session_tx e else e) } := by
        simp only [close_session, hfind, pyOr, update_user_traffic_stats,
          update_daily_traffic_stats]
        rfl
      simp only [List.map_cons, List.map_nil, List.foldl_cons, List.foldl_nil]
      rw [hclose]
      rw [show ({ s with
            users := s.users.map (fun v => if v.id == e0.user_id then
              { v with total_rx := v.total_rx + e0.session_rx,
                       total_tx := v.total_tx + e0.session_tx,
                       last_login := some clk.unix, updated_at := clk.unix } else v),
            traffic := (close_session e0.id (some 0) (some 0) clk s).traffic,
            events := s.events.map (fun e => if e.id == e0.id then
              closeRow clk e0.session_rx e0.session_tx e else e) } : ServerState).sessions =
        s.sessions from rfl, herase]
      have hbase := (h.usersMap (fun v => if v.id == e0.user_id then
          { v with total_rx := v.total_rx + e0.session_rx,
                   total_tx := v.total_tx + e0.session_tx,
                   last_login := some clk.unix, updated_at := clk.unix } else v)
        (fun v => by dsimp only; split <;> rfl)
        (fun v => by dsimp only; split <;> rfl)).ghost
        (close_session e0.id (some 0) (some 0) clk s).traffic s.system_stats
        (s.wgLog ++ [WgCall.remove u.peer_pubkey])
      have hstep := hbase.closeEventRemoveUser uid e0.id q hq
        (by rw [hq2, he0p.1]) (by rw [hq1]) clk e0.session_rx e0.session_tx
      exact hstep.usersFilterNoSess uid (fun r hr => by
        have := (List.mem_filter.mp hr).2
        simpa using this)

/-- The create-user HTTP handler preserves the invariant. -/
theorem StoreInv.createApi {s : ServerState} (h : StoreInv s) (clk : Clock)
    (req : CreateReq) : StoreInv (handle_create_user_api clk req s).1 := by
  unfold handle_create_user_api
  cases req.peer_pubkey with
  | none => exact h
  | some pk =>
    dsimp only
    have := h.createUser clk pk req.nickname req.mail req.phone req.bandwidth_limit
      req.data_limit req.expiry_date req.note
    cases hc : (create_user clk pk req.nickname req.mail req.phone req.bandwidth_limit
        req.data_limit req.expiry_date req.note s).2 with
    | ok r => exact this
    | error e =>
      cases e with
      | valueError m => exact this
      | runtimeError m => exact this
      | indexError m => exact this

/-- Every entry point preserves the invariant. -/
theorem StoreInv.applyOp {s : ServerState} (h : StoreInv s) (op : Op) :
    StoreInv (applyOp op s) := by
  cases op with
  | tick clk snapshot maxAge lastStats => exact h.tick clk snapshot maxAge lastStats
  | create clk req => exact h.createApi clk req
  | update uid k clk => exact h.updateUser uid k clk
  | reset uid clk => exact h.resetUser uid clk
  | kick uid clk => exact h.kickUser uid clk
  | delete uid clk => exact h.deleteUser uid clk

/-- Every reachable state satisfies the invariant. -/
theorem storeInv_reachable {s : ServerState} (h : Reachable s) : StoreInv s := by
  induction h with
  | init => exact storeInv_init
  | step op _ ih => exact ih.applyOp op

/-- C1: in every reachable state of a run — any interleaving of monitor
ticks, kicks, user deletions and the other admin mutations starting from the
empty store — each user has at most one row in the events table with
end_time NULL: sessions are opened only for pubkeys without a live-map
entry, and every close path ends the open event while dropping the entry. -/
theorem c1_at_most_one_open {s : ServerState} (h : Reachable s) :
    atMostOneOpenPerUser s :=
  (storeInv_reachable h).atMostOne

/-- C1 witness: after one tick that opens a session for the fixture peer on
the empty store, user 1 has at most one open event. -/
theorem c1_at_most_one_open_witness :
    ((applyOp (Op.tick wClock [(wPubkey, wPeer)] none 400) initState).events.filter
      (fun e => e.user_id == 1 && e.end_time.isNone)).length ≤ 1 :=
  c1_at_most_one_open
    (Reachable.step (Op.tick wClock [(wPubkey, wPeer)] none 400) Reachable.init) 1
